import Mathlib

/-!
# Shallow embedding of the v3-rebalancing backtester

Embeds the TypeScript sources `src/v3math.ts`, `src/strategies.ts` and the
precise variant of `src/backtest/engine.ts` into Lean.

Modelling conventions:
* JavaScript numbers are modelled as real numbers (`ℝ`); `Math.sqrt`, `Math.log`,
  `Math.log10` and `Math.pow` become `Real.sqrt`, `Real.log`, `Real.logb 10`
  and `Real.rpow`.
* The float sentinel `-Infinity` (used for the running drawdown peak and the
  "no candidate" strategy score) is modelled with `EReal`, whose `⊥` plays the
  role of `-Infinity`.
* Per-tick market fields that may be absent or non-finite (`Number.isFinite`
  guards in the engine) are modelled as `Option ℝ`, `none` standing for a
  missing/non-finite value.
* The ambient clock `Date.now()` is modelled as an explicit parameter `now`
  threaded into `runBacktest`.
* The engine constructs position objects of shape
  `{lower, upper, liquidity, lastRebalanceMs}` while the strategies module
  declares `{lower, upper, liquidityUsd, baseAmount, quoteAmount,
  lastRebalanceMs}`; a JavaScript read of an absent property yields
  `undefined`, so `position?.liquidityUsd ?? 0` evaluates to `0` on the
  engine's positions.  The two shapes are embedded as two distinct structures
  (`StratM.PositionState` and `Eng.Position`) and the strategy functions are
  instantiated once for each vault shape, exactly mirroring the structural
  typing of the source.
-/

noncomputable section
open Classical

namespace V3R

/-- JavaScript `Math.round` (round half toward positive infinity). -/
def jsRound (x : ℝ) : ℤ := ⌊x + 1/2⌋

/-- `clamp(value, min, max)` from `engine.ts`/`strategies.ts`:
`Math.max(min, Math.min(max, value))`. -/
def clamp (value lo hi : ℝ) : ℝ := max lo (min hi value)

/-! ## `v3math.ts` -/

/-- Result record of `getAmountsForLiquidity`. -/
structure V3Amounts where
  baseAmount : ℝ
  quoteAmount : ℝ

/-- `getAmountsForLiquidity` from `v3math.ts`: base and quote amounts of a
position with liquidity `L` over `[lower, upper]` at `price`. -/
def getAmountsForLiquidity (liquidity lower upper price : ℝ) : V3Amounts :=
  let sqrtLower := Real.sqrt lower
  let sqrtUpper := Real.sqrt upper
  let sqrtPrice := Real.sqrt price
  if price ≤ lower then
    { baseAmount := liquidity * (1 / sqrtLower - 1 / sqrtUpper), quoteAmount := 0 }
  else if upper ≤ price then
    { baseAmount := 0, quoteAmount := liquidity * (sqrtUpper - sqrtLower) }
  else
    { baseAmount := liquidity * (1 / sqrtPrice - 1 / sqrtUpper),
      quoteAmount := liquidity * (sqrtPrice - sqrtLower) }

/-- `getPositionValueUsd` from `v3math.ts`. -/
def getPositionValueUsd (liquidity lower upper price : ℝ) : ℝ :=
  let amts := getAmountsForLiquidity liquidity lower upper price
  amts.baseAmount * price + amts.quoteAmount

/-- Result record of `addLiquidityAmounts`. -/
structure AddLiquidityResult where
  baseUsed : ℝ
  quoteUsed : ℝ
  liquidity : ℝ

/-- `addLiquidityAmounts` from `v3math.ts`: amounts actually consumed when
adding liquidity over `[lower, upper]` at `price`, with the resulting `L`. -/
def addLiquidityAmounts (baseAvailable quoteAvailable lower upper price : ℝ) :
    AddLiquidityResult :=
  let sqrtLower := Real.sqrt lower
  let sqrtUpper := Real.sqrt upper
  let effectivePrice := max lower (min upper price)
  let sqrtPrice := Real.sqrt effectivePrice
  if price ≤ lower then
    let baseDenom := 1 / sqrtLower - 1 / sqrtUpper
    { baseUsed := baseAvailable, quoteUsed := 0, liquidity := baseAvailable / baseDenom }
  else if upper ≤ price then
    let quoteDenom := sqrtUpper - sqrtLower
    { baseUsed := 0, quoteUsed := quoteAvailable, liquidity := quoteAvailable / quoteDenom }
  else
    let baseDenom := 1 / sqrtPrice - 1 / sqrtUpper
    let quoteDenom := sqrtPrice - sqrtLower
    let liquidityFromBase := if 0 < baseDenom then baseAvailable / baseDenom else 0
    let liquidityFromQuote := if 0 < quoteDenom then quoteAvailable / quoteDenom else 0
    -- the source uses Infinity for a non-positive denominator; within the
    -- in-range branch both denominators are positive whenever 0 < lower < upper,
    -- the else-arms above are dead code there (0 is an arbitrary stand-in that
    -- keeps the definition total; the claims all carry 0 < lower < upper)
    let liquidity := min liquidityFromBase liquidityFromQuote
    { baseUsed := liquidity * baseDenom, quoteUsed := liquidity * quoteDenom,
      liquidity := liquidity }

/-- `getEffectiveSwapPrice` from `v3math.ts`. -/
def getEffectiveSwapPrice (midPrice tradeValueUsd poolLiquidityUsd : ℝ)
    (isBuy : Bool) (spreadBps impactBps : ℝ) : ℝ :=
  let spreadFactor := spreadBps / 10000
  let tradeRatio := tradeValueUsd / poolLiquidityUsd
  let impactFactor := impactBps / 10000 * (tradeRatio * 100)
  if isBuy then midPrice * (1 + spreadFactor / 2 + impactFactor)
  else midPrice * (1 - spreadFactor / 2 - impactFactor)

/-- `getLiquidityConcentration` from `v3math.ts`. -/
def getLiquidityConcentration (lower upper price : ℝ) : ℝ :=
  let sqrtLower := Real.sqrt lower
  let sqrtUpper := Real.sqrt upper
  let sqrtPrice := Real.sqrt (max lower (min upper price))
  let rangeWidth := sqrtUpper - sqrtLower
  if rangeWidth ≤ 0 then 1 else sqrtPrice / rangeWidth

/-- `estimateMevCost` from `v3math.ts`. -/
def estimateMevCost (tradeValueUsd poolLiquidityUsd volatility baseMevBps : ℝ) : ℝ :=
  if tradeValueUsd ≤ 0 ∨ poolLiquidityUsd ≤ 0 then 0
  else
    let tradeRatio := tradeValueUsd / poolLiquidityUsd
    let sizeFactor := min 2 (1 + Real.logb 10 (1 + tradeRatio * 100))
    let volFactor := max 0.5 (min 2 (volatility / 0.5))
    let smallTradeDiscount := if tradeValueUsd < 500 then tradeValueUsd / 500 else 1
    let mevRate := baseMevBps / 10000 * sizeFactor * volFactor * smallTradeDiscount
    tradeValueUsd * mevRate

/-- `calculateFeeShare` from `v3math.ts`. -/
def calculateFeeShare (positionLiquidity positionLower positionUpper poolTvlUsd
    currentPrice avgPoolRangeWidth : ℝ) : ℝ :=
  if currentPrice < positionLower ∨ positionUpper < currentPrice then 0
  else
    let positionConcentration :=
      getLiquidityConcentration positionLower positionUpper currentPrice
    let avgLower := currentPrice * (1 - avgPoolRangeWidth)
    let avgUpper := currentPrice * (1 + avgPoolRangeWidth)
    let avgPoolConcentration := getLiquidityConcentration avgLower avgUpper currentPrice
    let positionValueUsd :=
      getPositionValueUsd positionLiquidity positionLower positionUpper currentPrice
    if poolTvlUsd ≤ 0 ∨ poolTvlUsd ≤ positionValueUsd then 1
    else
      let capitalShare := positionValueUsd / poolTvlUsd
      let concentrationRatio :=
        if 0 < avgPoolConcentration then positionConcentration / avgPoolConcentration
        else 1
      min (capitalShare * concentrationRatio) 1

/-! ## Shared strategy-facing types (`strategies.ts`) -/

/-- Pool type tag. -/
inductive PoolType
  | volatile
  | stable
  | cl
deriving DecidableEq

/-- Which asset a swap sells. -/
inductive SwapSide
  | base
  | quote
deriving DecidableEq

/-- The closed `Action` union from `strategies.ts`. -/
inductive Action
  | removeLiquidity (percent : ℝ)
  | addLiquidity (lower upper amountUsd : ℝ)
  | swap (side : SwapSide) (amount : ℝ)
  | claimRewards (minUsd : ℝ)
  | noopAction

/-- The `action.type` discriminator string, as logged by the engine. -/
def Action.typeName : Action → String
  | .removeLiquidity _ => "REMOVE_LIQUIDITY"
  | .addLiquidity _ _ _ => "ADD_LIQUIDITY"
  | .swap _ _ => "SWAP"
  | .claimRewards _ => "CLAIM_REWARDS"
  | .noopAction => "NOOP"

/-- `action.type !== "NOOP"`. -/
def Action.isReal : Action → Bool
  | .noopAction => false
  | _ => true

/-- `PoolSnapshot` from `strategies.ts`. -/
structure PoolSnapshot where
  type : PoolType
  price : ℝ
  twapShort : ℝ
  twapLong : ℝ
  vol : ℝ
  feesApr : ℝ
  emissionsApr : ℝ
  liquidityUsd : ℝ
  gasUsd : ℝ

/-- `RebalanceParams` from `strategies.ts`, together with the optional
slippage/MEV fields the engine reads off the same object
(`swapSpreadBps ?? 10` etc.). -/
structure RebalanceParams where
  minGasMultiple : ℝ
  targetRebalanceHours : ℝ
  bandWidthK : ℝ
  minBandWidth : ℝ
  maxBandWidth : ℝ
  driftThreshold : ℝ
  trendThreshold : ℝ
  maxSkew : ℝ
  rewardsClaimUsd : ℝ
  swapSpreadBps : Option ℝ := none
  priceImpactBps : Option ℝ := none
  mevBps : Option ℝ := none
  avgPoolRangeWidth : Option ℝ := none

/-- `StrategyDecision` from `strategies.ts`; `score` is `EReal` because the
no-op sentinel is the float `-Infinity`. -/
structure StrategyDecision where
  shouldRebalance : Bool
  score : EReal
  reason : String
  actions : List Action
  strategy : Option String := none

/-- `volToBandWidth` (identical helper in `strategies.ts` and `engine.ts`). -/
def volToBandWidth (vol targetHours k : ℝ) : ℝ :=
  let yearHours : ℝ := 365 * 24
  let stdev := vol * Real.sqrt (targetHours / yearHours)
  k * stdev

/-- `isWorthRebalance` from `strategies.ts`. -/
def isWorthRebalance (gasUsd expectedGainUsd multiple : ℝ) : Prop :=
  gasUsd * multiple ≤ expectedGainUsd

/-- The `noop(reason)` decision constructor from `strategies.ts`. -/
def noopDecision (reason : String) : StrategyDecision :=
  { shouldRebalance := false, score := ⊥, reason := reason, actions := [.noopAction] }

/-- A registered strategy: name plus decision function, generic over the vault
shape `Ctx` (structural typing in the source). -/
structure Strategy (Ctx : Type) where
  name : String
  decide : Ctx → StrategyDecision

/-- Loop body of `StrategyRunner.pickBest`. -/
def pickBestAux {Ctx : Type} (ctx : Ctx) : List (Strategy Ctx) → StrategyDecision → StrategyDecision
  | [], best => best
  | s :: rest, best =>
      let decision := s.decide ctx
      pickBestAux ctx rest
        (if decision.shouldRebalance = true ∧ best.score < decision.score then
          { decision with strategy := some s.name }
        else best)

/-- `StrategyRunner.pickBest` from `strategies.ts`. -/
def pickBest {Ctx : Type} (strategies : List (Strategy Ctx)) (ctx : Ctx) : StrategyDecision :=
  pickBestAux ctx strategies (noopDecision "No strategies")

/-! ## The strategies module (`strategies.ts`), at its declared vault type -/

namespace StratM

/-- `PositionState` as declared in `strategies.ts`. -/
structure PositionState where
  lower : ℝ
  upper : ℝ
  liquidityUsd : ℝ
  baseAmount : ℝ
  quoteAmount : ℝ
  lastRebalanceMs : ℝ

/-- `VaultState` as declared in `strategies.ts`. -/
structure VaultState where
  baseBalance : ℝ
  quoteBalance : ℝ
  position : Option PositionState
  unclaimedRewardsUsd : ℝ

/-- `StrategyContext` from `strategies.ts`. -/
structure StrategyContext where
  pool : PoolSnapshot
  vault : VaultState
  params : RebalanceParams
  nowMs : ℝ

/-- `estimateFeeGain` from `strategies.ts`. -/
def estimateFeeGain (ctx : StrategyContext) (capitalUsd : ℝ) : ℝ :=
  let horizonDays := ctx.params.targetRebalanceHours / 24
  let feeGain := capitalUsd * ctx.pool.feesApr * (horizonDays / 365)
  let rewardsGain := capitalUsd * ctx.pool.emissionsApr * (horizonDays / 365)
  feeGain + rewardsGain

/-- `totalVaultValue` from `strategies.ts`
(`position?.liquidityUsd ?? 0`). -/
def totalVaultValue (ctx : StrategyContext) : ℝ :=
  let positionValue := (ctx.vault.position.map (·.liquidityUsd)).getD 0
  ctx.vault.baseBalance * ctx.pool.price + ctx.vault.quoteBalance + positionValue

/-- `RangeAroundTWAPStrategy.decide` from `strategies.ts`. -/
def rangeAroundTWAPDecide (ctx : StrategyContext) : StrategyDecision :=
  if ctx.pool.type ≠ .cl then noopDecision "CL-only strategy"
  else
    let center := ctx.pool.twapLong
    let width := clamp
      (volToBandWidth ctx.pool.vol ctx.params.targetRebalanceHours ctx.params.bandWidthK)
      ctx.params.minBandWidth ctx.params.maxBandWidth
    let lower := center * (1 - width)
    let upper := center * (1 + width)
    let priceOutOfRange :=
      match ctx.vault.position with
      | none => True
      | some position => ctx.pool.price < position.lower ∨ position.upper < ctx.pool.price
    let widthChanged :=
      match ctx.vault.position with
      | none => True
      | some position => 0.005 < |(position.upper - position.lower) / (2 * center) - width|
    if ¬priceOutOfRange ∧ ¬widthChanged then
      noopDecision "Price inside range; width stable"
    else
      let expectedGainUsd := estimateFeeGain ctx (totalVaultValue ctx)
      if ¬isWorthRebalance ctx.pool.gasUsd expectedGainUsd ctx.params.minGasMultiple then
        { shouldRebalance := false, score := (expectedGainUsd - ctx.pool.gasUsd : ℝ),
          reason := "Fee gain below gas threshold", actions := [.noopAction] }
      else
        { shouldRebalance := true, score := (expectedGainUsd - ctx.pool.gasUsd : ℝ),
          reason := if priceOutOfRange then "Price out of range" else "Volatility regime shift",
          actions := [.removeLiquidity 1,
            .addLiquidity lower upper (totalVaultValue ctx)] }

/-- `TrendSkewStrategy.decide` from `strategies.ts`. -/
def trendSkewDecide (ctx : StrategyContext) : StrategyDecision :=
  if ctx.pool.type ≠ .cl then noopDecision "CL-only strategy"
  else
    let momentum := ctx.pool.twapShort / ctx.pool.twapLong - 1
    if |momentum| < ctx.params.trendThreshold then noopDecision "No trend signal"
    else
      let skew := clamp (momentum * 2) (-ctx.params.maxSkew) ctx.params.maxSkew
      let center := ctx.pool.price * (1 + skew)
      let width := clamp
        (volToBandWidth ctx.pool.vol ctx.params.targetRebalanceHours ctx.params.bandWidthK)
        ctx.params.minBandWidth ctx.params.maxBandWidth
      let lower := center * (1 - width)
      let upper := center * (1 + width)
      let expectedGainUsd := estimateFeeGain ctx (totalVaultValue ctx)
      if ¬isWorthRebalance ctx.pool.gasUsd expectedGainUsd ctx.params.minGasMultiple then
        { shouldRebalance := false, score := (expectedGainUsd - ctx.pool.gasUsd : ℝ),
          reason := "Trend detected but gas too high", actions := [.noopAction] }
      else
        { shouldRebalance := true, score := (expectedGainUsd - ctx.pool.gasUsd : ℝ),
          reason := "Trend skew reposition",
          actions := [.removeLiquidity 1,
            .addLiquidity lower upper (totalVaultValue ctx)] }

/-- `InventoryTargetStrategy.decide` from `strategies.ts`. -/
def inventoryTargetDecide (ctx : StrategyContext) : StrategyDecision :=
  if ctx.pool.type = .cl then noopDecision "Non-CL inventory rebalance"
  else
    let baseValue := ctx.vault.baseBalance * ctx.pool.price
    let quoteValue := ctx.vault.quoteBalance
    let total := baseValue + quoteValue
    if total ≤ 0 then noopDecision "Empty vault"
    else
      let targetBaseValue := total * 0.5
      let drift := (baseValue - targetBaseValue) / total
      if |drift| < ctx.params.driftThreshold then noopDecision "Inventory within drift threshold"
      else
        let valueToSwap := |baseValue - targetBaseValue|
        let expectedGainUsd := estimateFeeGain ctx total
        if ¬isWorthRebalance ctx.pool.gasUsd expectedGainUsd ctx.params.minGasMultiple then
          { shouldRebalance := false, score := (expectedGainUsd - ctx.pool.gasUsd : ℝ),
            reason := "Inventory drift but gas too high", actions := [.noopAction] }
        else
          let side : SwapSide := if 0 < drift then .base else .quote
          let amount := if side = .base then valueToSwap / ctx.pool.price else valueToSwap
          { shouldRebalance := true, score := (expectedGainUsd - ctx.pool.gasUsd : ℝ),
            reason := "Inventory drift rebalance", actions := [.swap side amount] }

/-- `RewardCompoundStrategy.decide` from `strategies.ts`. -/
def rewardCompoundDecide (ctx : StrategyContext) : StrategyDecision :=
  if ctx.vault.unclaimedRewardsUsd < ctx.params.rewardsClaimUsd then
    noopDecision "Rewards below threshold"
  else
    let expectedGainUsd := ctx.vault.unclaimedRewardsUsd
    if ¬isWorthRebalance ctx.pool.gasUsd expectedGainUsd ctx.params.minGasMultiple then
      { shouldRebalance := false, score := (expectedGainUsd - ctx.pool.gasUsd : ℝ),
        reason := "Rewards claim below gas threshold", actions := [.noopAction] }
    else
      { shouldRebalance := true, score := (expectedGainUsd - ctx.pool.gasUsd : ℝ),
        reason := "Compound emissions",
        actions := [.claimRewards ctx.params.rewardsClaimUsd] }

/-- `createDefaultStrategies` from `strategies.ts`: fixed registration order. -/
def createDefaultStrategies : List (Strategy StrategyContext) :=
  [⟨"range-around-twap", rangeAroundTWAPDecide⟩,
   ⟨"trend-skew", trendSkewDecide⟩,
   ⟨"inventory-target", inventoryTargetDecide⟩,
   ⟨"reward-compound", rewardCompoundDecide⟩]

end StratM

/-! ## Engine-level configuration and market data (`types.ts`) -/

/-- The rolling-window sizes from `BacktestConfig.windows`. -/
structure WindowsConfig where
  volDays : ℝ
  twapShortHours : ℝ
  twapLongHours : ℝ

/-- `BacktestConfig` from `types.ts` (core fields consumed by the engine). -/
structure BacktestConfig where
  poolType : PoolType
  symbol : String
  timeStepMinutes : ℝ
  lookbackDays : ℝ
  initialCapitalUsd : ℝ
  feesApr : ℝ
  emissionsApr : ℝ
  liquidityUsd : ℝ
  gasUsd : ℝ
  windows : WindowsConfig
  rebalanceParams : RebalanceParams

/-- `MarketPoint` from `types.ts`. The four economic fields may be absent or
non-finite, which the engine's `Number.isFinite` guards detect; `none`
models such a value. -/
structure MarketPoint where
  ts : ℝ
  price : ℝ
  feesApr : Option ℝ
  emissionsApr : Option ℝ
  liquidityUsd : Option ℝ
  gasUsd : Option ℝ

/-! ## The precise backtest engine (`backtest/engine.ts`, first variant) -/

namespace Eng

/-- The position objects the precise engine stores on the vault:
`{lower, upper, liquidity, lastRebalanceMs}`. -/
structure Position where
  lower : ℝ
  upper : ℝ
  liquidity : ℝ
  lastRebalanceMs : ℝ

/-- The vault as manipulated by the precise engine. -/
structure VaultState where
  baseBalance : ℝ
  quoteBalance : ℝ
  position : Option Position
  unclaimedRewardsUsd : ℝ

/-- `RunningStats` from `engine.ts`. -/
structure RunningStats where
  feesUsd : ℝ
  emissionsUsd : ℝ
  gasUsd : ℝ
  mevUsd : ℝ
  rebalances : ℕ

/-- `StrategyContext` instantiated at the engine's vault shape. -/
structure StrategyContext where
  pool : PoolSnapshot
  vault : VaultState
  params : RebalanceParams
  nowMs : ℝ

/-- One applied-decision log entry (`BacktestResult["actions"][number]`). -/
structure BacktestAction where
  ts : ℝ
  strategy : String
  reason : String
  actions : List String
  gasUsd : ℝ

/-- `totalVaultValue` from `engine.ts`: position value derived from the CLMM
formulas. -/
def totalVaultValue (vault : VaultState) (price : ℝ) : ℝ :=
  let positionValue :=
    match vault.position with
    | some pos => getPositionValueUsd pos.liquidity pos.lower pos.upper price
    | none => 0
  vault.baseBalance * price + vault.quoteBalance + positionValue

/-- `removeLiquidity` from `engine.ts`. -/
def removeLiquidity (vault : VaultState) (price percent : ℝ) : VaultState :=
  match vault.position with
  | none => vault
  | some pos =>
      let clamped := clamp percent 0 1
      let amts := getAmountsForLiquidity pos.liquidity pos.lower pos.upper price
      let newLiquidity := pos.liquidity * (1 - clamped)
      { vault with
        baseBalance := vault.baseBalance + amts.baseAmount * clamped
        quoteBalance := vault.quoteBalance + amts.quoteAmount * clamped
        position :=
          if newLiquidity ≤ 0.01 then none
          else some { pos with liquidity := newLiquidity } }

/-- `addLiquidity` from `engine.ts`.  Note that `amountUsd` is accepted but
never used: sizing always starts from the full available balances. -/
def addLiquidity (vault : VaultState) (price lower upper amountUsd ts : ℝ) : VaultState :=
  let r := addLiquidityAmounts vault.baseBalance vault.quoteBalance lower upper price
  if r.liquidity ≤ 0 then vault
  else
    { vault with
      baseBalance := vault.baseBalance - r.baseUsed
      quoteBalance := vault.quoteBalance - r.quoteUsed
      position := some ⟨lower, upper, r.liquidity, ts⟩ }

/-- `swapInventory` from `engine.ts` (precise variant, with slippage). -/
def swapInventory (vault : VaultState) (price : ℝ) (side : SwapSide)
    (amount poolLiquidityUsd spreadBps impactBps : ℝ) : VaultState :=
  if amount ≤ 0 then vault
  else
    match side with
    | .base =>
        let baseUsed := min amount vault.baseBalance
        let tradeValueUsd := baseUsed * price
        let effectivePrice :=
          getEffectiveSwapPrice price tradeValueUsd poolLiquidityUsd false spreadBps impactBps
        { vault with
          baseBalance := vault.baseBalance - baseUsed
          quoteBalance := vault.quoteBalance + baseUsed * effectivePrice }
    | .quote =>
        let quoteUsed := min amount vault.quoteBalance
        let effectivePrice :=
          getEffectiveSwapPrice price quoteUsed poolLiquidityUsd true spreadBps impactBps
        { vault with
          quoteBalance := vault.quoteBalance - quoteUsed
          baseBalance := vault.baseBalance + quoteUsed / effectivePrice }

/-- `claimRewards` from `engine.ts`. -/
def claimRewards (vault : VaultState) : VaultState :=
  if vault.unclaimedRewardsUsd ≤ 0 then vault
  else
    { vault with
      quoteBalance := vault.quoteBalance + vault.unclaimedRewardsUsd
      unclaimedRewardsUsd := 0 }

/-- `deductGas` from `engine.ts`: drain quote first, convert any shortfall
into a base-asset deduction at `price`, floored at zero. -/
def deductGas (vault : VaultState) (gasUsd price : ℝ) : VaultState :=
  if gasUsd ≤ 0 then vault
  else if gasUsd ≤ vault.quoteBalance then
    { vault with quoteBalance := vault.quoteBalance - gasUsd }
  else
    let shortfall := gasUsd - vault.quoteBalance
    { vault with
      quoteBalance := 0
      baseBalance := max 0 (vault.baseBalance - shortfall / price) }

/-- `updateVault` from `engine.ts` (per-tick accrual), returning the new vault
and updated running stats.  `lastPrice` is accepted but unused by the precise
variant, matching the source signature. -/
def updateVault (vault : VaultState) (pool : PoolSnapshot) (lastPrice price dtDays : ℝ)
    (stats : RunningStats) (avgPoolRangeWidth : ℝ) : VaultState × RunningStats :=
  match vault.position with
  | some pos =>
      if pos.lower ≤ price ∧ price ≤ pos.upper then
        let feeShare := calculateFeeShare pos.liquidity pos.lower pos.upper
          pool.liquidityUsd price avgPoolRangeWidth
        let totalPoolFees := pool.liquidityUsd * pool.feesApr * (dtDays / 365)
        let fees := totalPoolFees * feeShare
        let positionValueUsd := getPositionValueUsd pos.liquidity pos.lower pos.upper price
        let emissionShare :=
          if 0 < pool.liquidityUsd then positionValueUsd / pool.liquidityUsd else 0
        let rewards := pool.liquidityUsd * pool.emissionsApr * (dtDays / 365) * emissionShare
        ({ vault with
            quoteBalance := vault.quoteBalance + fees
            unclaimedRewardsUsd := vault.unclaimedRewardsUsd + rewards },
         { stats with
            feesUsd := stats.feesUsd + fees
            emissionsUsd := stats.emissionsUsd + rewards })
      else (vault, stats)
  | none =>
      if pool.type ≠ .cl then
        let total := totalVaultValue vault price
        if 0 < total then
          let fees := total * pool.feesApr * (dtDays / 365)
          let rewards := total * pool.emissionsApr * (dtDays / 365)
          ({ vault with
              quoteBalance := vault.quoteBalance + fees
              unclaimedRewardsUsd := vault.unclaimedRewardsUsd + rewards },
           { stats with
              feesUsd := stats.feesUsd + fees
              emissionsUsd := stats.emissionsUsd + rewards })
        else (vault, stats)
      else (vault, stats)

/-- One step of the trade-value accumulation loop in `applyDecision`
(`swapTradeValueUsd`, `lpTradeValueUsd`). -/
def tradeValueStep (vault : VaultState) (pool : PoolSnapshot) (acc : ℝ × ℝ) :
    Action → ℝ × ℝ
  | .swap side amount =>
      (acc.1 + (if side = .base then amount * pool.price else amount), acc.2)
  | .removeLiquidity percent =>
      match vault.position with
      | some pos =>
          (acc.1, acc.2 +
            getPositionValueUsd (pos.liquidity * percent) pos.lower pos.upper pool.price * 0.1)
      | none => acc
  | .addLiquidity _ _ amountUsd => (acc.1, acc.2 + amountUsd * 0.1)
  | .claimRewards _ => acc
  | .noopAction => acc

/-- Aggregate MEV-exposed trade value of a decision's actions. -/
def tradeValueUsd (vault : VaultState) (pool : PoolSnapshot) (actions : List Action) : ℝ :=
  let p := actions.foldl (tradeValueStep vault pool) (0, 0)
  p.1 + p.2

/-- The action-dispatch `switch` of `applyDecision`. -/
def applyAction (pool : PoolSnapshot) (ts spreadBps impactBps : ℝ)
    (vault : VaultState) : Action → VaultState
  | .removeLiquidity percent => removeLiquidity vault pool.price percent
  | .addLiquidity lower upper amountUsd =>
      addLiquidity vault pool.price lower upper amountUsd ts
  | .swap side amount =>
      swapInventory vault pool.price side amount pool.liquidityUsd spreadBps impactBps
  | .claimRewards _ => claimRewards vault
  | .noopAction => vault

/-- `applyDecision` from `engine.ts` (precise variant): gas deduction, MEV
deduction, then the action sequence; returns the new vault, new stats, and
the action-log entry (`none` when the decision carries no real action). -/
def applyDecision (vault : VaultState) (pool : PoolSnapshot)
    (decision : StrategyDecision) (stats : RunningStats)
    (ts spreadBps impactBps mevBps : ℝ) :
    VaultState × RunningStats × Option BacktestAction :=
  if ¬decision.actions.any (·.isReal) then (vault, stats, none)
  else
    let strategyName := decision.strategy.getD "unknown"
    let totalTradeValueUsd := tradeValueUsd vault pool decision.actions
    let v1 := deductGas vault pool.gasUsd pool.price
    let stats1 := { stats with gasUsd := stats.gasUsd + pool.gasUsd }
    let mevCost := estimateMevCost totalTradeValueUsd pool.liquidityUsd pool.vol mevBps
    let v2 := if 0 < mevCost then deductGas v1 mevCost pool.price else v1
    let stats2 :=
      if 0 < mevCost then { stats1 with mevUsd := stats1.mevUsd + mevCost } else stats1
    let stats3 := { stats2 with rebalances := stats2.rebalances + 1 }
    let v3 := decision.actions.foldl (applyAction pool ts spreadBps impactBps) v2
    (v3, stats3,
     some { ts := ts, strategy := strategyName, reason := decision.reason,
            actions := decision.actions.map (·.typeName), gasUsd := pool.gasUsd })

/-! ### The strategies, instantiated at the engine's vault shape

The engine passes its own vault objects to the strategies.  A JavaScript read
of `position?.liquidityUsd` on an engine position (which has `liquidity`,
not `liquidityUsd`) yields `undefined`, so `?? 0` makes the strategies'
`totalVaultValue` see a position value of `0`. -/

/-- `estimateFeeGain` from `strategies.ts`, engine context. -/
def stratEstimateFeeGain (ctx : StrategyContext) (capitalUsd : ℝ) : ℝ :=
  let horizonDays := ctx.params.targetRebalanceHours / 24
  let feeGain := capitalUsd * ctx.pool.feesApr * (horizonDays / 365)
  let rewardsGain := capitalUsd * ctx.pool.emissionsApr * (horizonDays / 365)
  feeGain + rewardsGain

/-- The strategies' `totalVaultValue` evaluated on an engine vault:
`position?.liquidityUsd ?? 0` reads an absent property, hence `0`. -/
def stratTotalVaultValue (ctx : StrategyContext) : ℝ :=
  ctx.vault.baseBalance * ctx.pool.price + ctx.vault.quoteBalance + 0

/-- `RangeAroundTWAPStrategy.decide`, engine context. -/
def rangeAroundTWAPDecide (ctx : StrategyContext) : StrategyDecision :=
  if ctx.pool.type ≠ .cl then noopDecision "CL-only strategy"
  else
    let center := ctx.pool.twapLong
    let width := clamp
      (volToBandWidth ctx.pool.vol ctx.params.targetRebalanceHours ctx.params.bandWidthK)
      ctx.params.minBandWidth ctx.params.maxBandWidth
    let lower := center * (1 - width)
    let upper := center * (1 + width)
    let priceOutOfRange :=
      match ctx.vault.position with
      | none => True
      | some position => ctx.pool.price < position.lower ∨ position.upper < ctx.pool.price
    let widthChanged :=
      match ctx.vault.position with
      | none => True
      | some position => 0.005 < |(position.upper - position.lower) / (2 * center) - width|
    if ¬priceOutOfRange ∧ ¬widthChanged then
      noopDecision "Price inside range; width stable"
    else
      let expectedGainUsd := stratEstimateFeeGain ctx (stratTotalVaultValue ctx)
      if ¬isWorthRebalance ctx.pool.gasUsd expectedGainUsd ctx.params.minGasMultiple then
        { shouldRebalance := false, score := (expectedGainUsd - ctx.pool.gasUsd : ℝ),
          reason := "Fee gain below gas threshold", actions := [.noopAction] }
      else
        { shouldRebalance := true, score := (expectedGainUsd - ctx.pool.gasUsd : ℝ),
          reason := if priceOutOfRange then "Price out of range" else "Volatility regime shift",
          actions := [.removeLiquidity 1,
            .addLiquidity lower upper (stratTotalVaultValue ctx)] }

/-- `TrendSkewStrategy.decide`, engine context. -/
def trendSkewDecide (ctx : StrategyContext) : StrategyDecision :=
  if ctx.pool.type ≠ .cl then noopDecision "CL-only strategy"
  else
    let momentum := ctx.pool.twapShort / ctx.pool.twapLong - 1
    if |momentum| < ctx.params.trendThreshold then noopDecision "No trend signal"
    else
      let skew := clamp (momentum * 2) (-ctx.params.maxSkew) ctx.params.maxSkew
      let center := ctx.pool.price * (1 + skew)
      let width := clamp
        (volToBandWidth ctx.pool.vol ctx.params.targetRebalanceHours ctx.params.bandWidthK)
        ctx.params.minBandWidth ctx.params.maxBandWidth
      let lower := center * (1 - width)
      let upper := center * (1 + width)
      let expectedGainUsd := stratEstimateFeeGain ctx (stratTotalVaultValue ctx)
      if ¬isWorthRebalance ctx.pool.gasUsd expectedGainUsd ctx.params.minGasMultiple then
        { shouldRebalance := false, score := (expectedGainUsd - ctx.pool.gasUsd : ℝ),
          reason := "Trend detected but gas too high", actions := [.noopAction] }
      else
        { shouldRebalance := true, score := (expectedGainUsd - ctx.pool.gasUsd : ℝ),
          reason := "Trend skew reposition",
          actions := [.removeLiquidity 1,
            .addLiquidity lower upper (stratTotalVaultValue ctx)] }

/-- `InventoryTargetStrategy.decide`, engine context. -/
def inventoryTargetDecide (ctx : StrategyContext) : StrategyDecision :=
  if ctx.pool.type = .cl then noopDecision "Non-CL inventory rebalance"
  else
    let baseValue := ctx.vault.baseBalance * ctx.pool.price
    let quoteValue := ctx.vault.quoteBalance
    let total := baseValue + quoteValue
    if total ≤ 0 then noopDecision "Empty vault"
    else
      let targetBaseValue := total * 0.5
      let drift := (baseValue - targetBaseValue) / total
      if |drift| < ctx.params.driftThreshold then noopDecision "Inventory within drift threshold"
      else
        let valueToSwap := |baseValue - targetBaseValue|
        let expectedGainUsd := stratEstimateFeeGain ctx total
        if ¬isWorthRebalance ctx.pool.gasUsd expectedGainUsd ctx.params.minGasMultiple then
          { shouldRebalance := false, score := (expectedGainUsd - ctx.pool.gasUsd : ℝ),
            reason := "Inventory drift but gas too high", actions := [.noopAction] }
        else
          let side : SwapSide := if 0 < drift then .base else .quote
          let amount := if side = .base then valueToSwap / ctx.pool.price else valueToSwap
          { shouldRebalance := true, score := (expectedGainUsd - ctx.pool.gasUsd : ℝ),
            reason := "Inventory drift rebalance", actions := [.swap side amount] }

/-- `RewardCompoundStrategy.decide`, engine context. -/
def rewardCompoundDecide (ctx : StrategyContext) : StrategyDecision :=
  if ctx.vault.unclaimedRewardsUsd < ctx.params.rewardsClaimUsd then
    noopDecision "Rewards below threshold"
  else
    let expectedGainUsd := ctx.vault.unclaimedRewardsUsd
    if ¬isWorthRebalance ctx.pool.gasUsd expectedGainUsd ctx.params.minGasMultiple then
      { shouldRebalance := false, score := (expectedGainUsd - ctx.pool.gasUsd : ℝ),
        reason := "Rewards claim below gas threshold", actions := [.noopAction] }
    else
      { shouldRebalance := true, score := (expectedGainUsd - ctx.pool.gasUsd : ℝ),
        reason := "Compound emissions",
        actions := [.claimRewards ctx.params.rewardsClaimUsd] }

/-- `createDefaultStrategies`, engine context. -/
def defaultStrategies : List (Strategy StrategyContext) :=
  [⟨"range-around-twap", rangeAroundTWAPDecide⟩,
   ⟨"trend-skew", trendSkewDecide⟩,
   ⟨"inventory-target", inventoryTargetDecide⟩,
   ⟨"reward-compound", rewardCompoundDecide⟩]

/-! ### The engine loop (`runBacktest`) -/

/-- `seedInitialPosition` from `engine.ts`.  `now` models the `Date.now()`
call that stamps `lastRebalanceMs`. -/
def seedInitialPosition (vault : VaultState) (pool : PoolSnapshot)
    (config : BacktestConfig) (now : ℝ) : VaultState :=
  let width := clamp
    (volToBandWidth pool.vol config.rebalanceParams.targetRebalanceHours
      config.rebalanceParams.bandWidthK)
    config.rebalanceParams.minBandWidth config.rebalanceParams.maxBandWidth
  let lower := pool.price * (1 - width)
  let upper := pool.price * (1 + width)
  let r := addLiquidityAmounts vault.baseBalance vault.quoteBalance lower upper pool.price
  { vault with
    position := some ⟨lower, upper, r.liquidity, now⟩
    baseBalance := vault.baseBalance - r.baseUsed
    quoteBalance := vault.quoteBalance - r.quoteUsed }

/-- One equity-curve point. -/
structure EquityPoint where
  ts : ℝ
  valueUsd : ℝ
  price : ℝ

/-- `computeTwap` from `engine.ts`: mean of the last `window` prices. -/
def computeTwap (prices : List ℝ) (window : ℕ) : ℝ :=
  if prices.isEmpty then 0
  else
    let slice := prices.drop (prices.length - window)
    slice.sum / (slice.length : ℝ)

/-- `computeAnnualizedVol` from `engine.ts`: sample stdev of the last
`window` log-returns, annualized. -/
def computeAnnualizedVol (returns : List ℝ) (window : ℕ) (stepMinutes : ℝ) : ℝ :=
  if returns.length < 2 then 0
  else
    let slice := returns.drop (returns.length - window)
    if slice.length < 2 then 0
    else
      let mean := slice.sum / (slice.length : ℝ)
      let variance := (slice.map fun v => (v - mean) ^ 2).sum / ((slice.length : ℝ) - 1)
      Real.sqrt variance * Real.sqrt (365 * 24 * 60 / stepMinutes)

/-- One step of `computeMaxDrawdown`'s loop: the running peak starts at the
float `-Infinity`, modelled as `(⊥ : EReal)`. -/
def ddStep (s : EReal × ℝ) (point : EquityPoint) : EReal × ℝ :=
  let peak := if s.1 < (point.valueUsd : EReal) then (point.valueUsd : EReal) else s.1
  let drawdown := if 0 < peak then (peak.toReal - point.valueUsd) / peak.toReal else 0
  (peak, if s.2 < drawdown then drawdown else s.2)

/-- `computeMaxDrawdown` from `engine.ts`. -/
def computeMaxDrawdown (equity : List EquityPoint) : ℝ :=
  (equity.foldl ddStep (⊥, 0)).2 * 100

/-- `annualizeReturn` from `engine.ts` (geometric compounding). -/
def annualizeReturn (totalReturnPct days : ℝ) : ℝ :=
  if days ≤ 0 then totalReturnPct
  else
    let totalReturn := totalReturnPct / 100
    let years := days / 365
    ((1 + totalReturn) ^ (1 / years : ℝ) - 1) * 100

/-- `volWindowSteps = Math.max(2, Math.round(volDays*24*60/timeStepMinutes))`. -/
def volWindowSteps (config : BacktestConfig) : ℕ :=
  (max 2 (jsRound (config.windows.volDays * 24 * 60 / config.timeStepMinutes))).toNat

/-- `twapShortSteps` from `runBacktest`. -/
def twapShortSteps (config : BacktestConfig) : ℕ :=
  (max 2 (jsRound (config.windows.twapShortHours * 60 / config.timeStepMinutes))).toNat

/-- `twapLongSteps` from `runBacktest`. -/
def twapLongSteps (config : BacktestConfig) : ℕ :=
  (max 2 (jsRound (config.windows.twapLongHours * 60 / config.timeStepMinutes))).toNat

/-- The mutable state of `runBacktest`'s main loop. -/
structure LoopState where
  returns : List ℝ
  prices : List ℝ
  equity : List EquityPoint
  actions : List BacktestAction
  stats : RunningStats
  vault : VaultState
  lastPrice : ℝ

/-- The initial-seeding step of the loop body
(`if (!vault.position && config.poolType === "cl")`). -/
def seedStep (config : BacktestConfig) (now : ℝ) (pool : PoolSnapshot)
    (v : VaultState) : VaultState :=
  if v.position = none ∧ config.poolType = .cl then
    seedInitialPosition v pool config now
  else v

/-- The strategy-evaluation-and-application step of the loop body
(run from index 1 onward). -/
def decideStep (config : BacktestConfig) (i : ℕ) (pool : PoolSnapshot) (ts : ℝ)
    (v : VaultState) (stats : RunningStats) :
    VaultState × RunningStats × Option BacktestAction :=
  if 0 < i then
    let decision := pickBest defaultStrategies ⟨pool, v, config.rebalanceParams, ts⟩
    if decision.shouldRebalance then
      applyDecision v pool decision stats ts
        (config.rebalanceParams.swapSpreadBps.getD 10)
        (config.rebalanceParams.priceImpactBps.getD 5)
        (config.rebalanceParams.mevBps.getD 30)
    else (v, stats, none)
  else (v, stats, none)

/-- The per-tick vault pipeline of `runBacktest`'s loop body: accrual
(`updateVault`), initial seeding, strategy evaluation from index 1 onward,
and decision application. -/
def tickVault (config : BacktestConfig) (now : ℝ) (i : ℕ) (pool : PoolSnapshot)
    (ts lastPrice : ℝ) (vault : VaultState) (stats : RunningStats) :
    VaultState × RunningStats × Option BacktestAction :=
  let vs1 := updateVault vault pool lastPrice pool.price
    (config.timeStepMinutes / (24 * 60)) stats
    (config.rebalanceParams.avgPoolRangeWidth.getD 0.2)
  decideStep config i pool ts (seedStep config now pool vs1.1) vs1.2

/-- One iteration of `runBacktest`'s loop at index `i`. -/
def stepTick (config : BacktestConfig) (now : ℝ) (i : ℕ) (s : LoopState)
    (point : MarketPoint) : LoopState :=
  let price := point.price
  let returns := if 0 < i then s.returns ++ [Real.log (price / s.lastPrice)] else s.returns
  let prices := s.prices ++ [price]
  let vol := computeAnnualizedVol returns (volWindowSteps config) config.timeStepMinutes
  let twapShort := computeTwap prices (twapShortSteps config)
  let twapLong := computeTwap prices (twapLongSteps config)
  let feesApr := point.feesApr.getD config.feesApr
  let emissionsApr := point.emissionsApr.getD config.emissionsApr
  let liquidityUsd :=
    match point.liquidityUsd with
    | some x => if 0 < x then x else config.liquidityUsd
    | none => config.liquidityUsd
  let gasUsd :=
    match point.gasUsd with
    | some x => if 0 ≤ x then x else config.gasUsd
    | none => config.gasUsd
  let pool : PoolSnapshot :=
    ⟨config.poolType, price, twapShort, twapLong, vol, feesApr, emissionsApr, liquidityUsd,
     gasUsd⟩
  let applied := tickVault config now i pool point.ts s.lastPrice s.vault s.stats
  { returns := returns
    prices := prices
    equity := s.equity ++ [⟨point.ts, totalVaultValue applied.1 price, price⟩]
    actions := s.actions ++ applied.2.2.toList
    stats := applied.2.1
    vault := applied.1
    lastPrice := price }

/-- `runBacktest`'s loop over the series, carrying the 0-based index. -/
def runLoop (config : BacktestConfig) (now : ℝ) : ℕ → LoopState → List MarketPoint → LoopState
  | _, s, [] => s
  | i, s, point :: rest => runLoop config now (i + 1) (stepTick config now i s point) rest

/-- `BacktestSummary` from `types.ts`. -/
structure BacktestSummary where
  startValueUsd : ℝ
  endValueUsd : ℝ
  totalReturnPct : ℝ
  annualizedReturnPct : ℝ
  feesUsd : ℝ
  emissionsUsd : ℝ
  gasUsd : ℝ
  mevUsd : ℝ
  rebalances : ℕ
  maxDrawdownPct : ℝ

/-- `BacktestResult.meta`; `generatedAt` records `Date.now()`. -/
structure BacktestMeta where
  generatedAt : ℝ
  symbol : String
  poolType : PoolType
  points : ℕ

/-- `BacktestResult.lastSnapshot`. -/
structure LastSnapshot where
  ts : ℝ
  price : ℝ
  twapShort : ℝ
  twapLong : ℝ
  vol : ℝ

/-- `BacktestResult` from `types.ts`. -/
structure BacktestResult where
  meta : BacktestMeta
  summary : BacktestSummary
  equityCurve : List EquityPoint
  actions : List BacktestAction
  lastSnapshot : LastSnapshot

/-- `runBacktest` from `engine.ts` (precise variant).  The thrown
`Error("No market data points available")` is modelled as `Except.error`;
`now` models the ambient `Date.now()` clock. -/
def runBacktest (now : ℝ) (config : BacktestConfig) (series : List MarketPoint) :
    Except String BacktestResult :=
  match series with
  | [] => .error "No market data points available"
  | first :: rest =>
      let initVault : VaultState :=
        ⟨config.initialCapitalUsd / 2 / first.price, config.initialCapitalUsd / 2, none, 0⟩
      let init : LoopState := ⟨[], [], [], [], ⟨0, 0, 0, 0, 0⟩, initVault, first.price⟩
      let final := runLoop config now 0 init (first :: rest)
      let startValueUsd := ((final.equity.head?).map (·.valueUsd)).getD config.initialCapitalUsd
      let endValueUsd := ((final.equity.getLast?).map (·.valueUsd)).getD startValueUsd
      let totalReturnPct := (endValueUsd - startValueUsd) / startValueUsd * 100
      let summary : BacktestSummary :=
        ⟨startValueUsd, endValueUsd, totalReturnPct,
         annualizeReturn totalReturnPct config.lookbackDays,
         final.stats.feesUsd, final.stats.emissionsUsd, final.stats.gasUsd,
         final.stats.mevUsd, final.stats.rebalances, computeMaxDrawdown final.equity⟩
      let last := rest.getLastD first
      .ok
        { meta := ⟨now, config.symbol, config.poolType, (first :: rest).length⟩
          summary := summary
          equityCurve := final.equity
          actions := final.actions
          lastSnapshot :=
            ⟨last.ts, last.price,
             computeTwap final.prices (twapShortSteps config),
             computeTwap final.prices (twapLongSteps config),
             computeAnnualizedVol final.returns (volWindowSteps config)
               config.timeStepMinutes⟩ }

end Eng

/-! ## Claim C5: sizing round-trip -/

theorem sqrt_lower_lt_sqrt_upper {lower upper : ℝ} (hl : 0 < lower) (hlu : lower < upper) :
    Real.sqrt lower < Real.sqrt upper :=
  Real.sqrt_lt_sqrt hl.le hlu

theorem one_div_sqrt_sub_pos {lower upper : ℝ} (hl : 0 < lower) (hlu : lower < upper) :
    0 < 1 / Real.sqrt lower - 1 / Real.sqrt upper :=
  sub_pos.mpr (one_div_lt_one_div_of_lt (Real.sqrt_pos.mpr hl)
    (sqrt_lower_lt_sqrt_upper hl hlu))

theorem addLiquidityAmounts_roundtrip (base quote lower upper price : ℝ)
    (hl : 0 < lower) (hlu : lower < upper) :
    (getAmountsForLiquidity (addLiquidityAmounts base quote lower upper price).liquidity
        lower upper price).baseAmount
      = (addLiquidityAmounts base quote lower upper price).baseUsed ∧
    (getAmountsForLiquidity (addLiquidityAmounts base quote lower upper price).liquidity
        lower upper price).quoteAmount
      = (addLiquidityAmounts base quote lower upper price).quoteUsed := by
  have hsl : 0 < Real.sqrt lower := Real.sqrt_pos.mpr hl
  have hslu : Real.sqrt lower < Real.sqrt upper := sqrt_lower_lt_sqrt_upper hl hlu
  by_cases h1 : price ≤ lower
  · simp only [addLiquidityAmounts, getAmountsForLiquidity, if_pos h1]
    exact ⟨div_mul_cancel₀ base (ne_of_gt (one_div_sqrt_sub_pos hl hlu)), trivial⟩
  · by_cases h2 : upper ≤ price
    · simp only [addLiquidityAmounts, getAmountsForLiquidity, if_neg h1, if_pos h2]
      exact ⟨trivial, div_mul_cancel₀ quote (ne_of_gt (sub_pos.mpr hslu))⟩
    · push_neg at h1 h2
      have heff : max lower (min upper price) = price := by
        rw [min_eq_right h2.le, max_eq_right h1.le]
      have hsp : 0 < Real.sqrt price := Real.sqrt_pos.mpr (hl.trans h1)
      have hspu : Real.sqrt price < Real.sqrt upper :=
        Real.sqrt_lt_sqrt (hl.trans h1).le h2
      have hbd : 0 < 1 / Real.sqrt price - 1 / Real.sqrt upper :=
        sub_pos.mpr (one_div_lt_one_div_of_lt hsp hspu)
      have hqd : 0 < Real.sqrt price - Real.sqrt lower :=
        sub_pos.mpr (Real.sqrt_lt_sqrt hl.le h1)
      simp only [addLiquidityAmounts, getAmountsForLiquidity,
        if_neg (not_le.mpr h1), if_neg (not_le.mpr h2), heff,
        if_pos hbd, if_pos hqd]
      exact ⟨trivial, trivial⟩

/-- C5: for `0 < lower < upper` and `0 < price`, pushing the liquidity
returned by `addLiquidityAmounts` back through `getAmountsForLiquidity` at
the same price reproduces exactly the consumed amounts.  In the real-number
model the round-trip is exact, which subsumes the claim's floating-point
tolerance. -/
theorem c5_sizing_roundtrip (base quote lower upper price : ℝ)
    (hl : 0 < lower) (hlu : lower < upper) (hp : 0 < price) :
    (getAmountsForLiquidity (addLiquidityAmounts base quote lower upper price).liquidity
        lower upper price).baseAmount
      = (addLiquidityAmounts base quote lower upper price).baseUsed ∧
    (getAmountsForLiquidity (addLiquidityAmounts base quote lower upper price).liquidity
        lower upper price).quoteAmount
      = (addLiquidityAmounts base quote lower upper price).quoteUsed :=
  addLiquidityAmounts_roundtrip base quote lower upper price hl hlu

/-- Witness for C5 at `lower = 4`, `upper = 9`, `price = 25/4`,
`base = quote = 6`. -/
theorem c5_sizing_roundtrip_witness :
    (0:ℝ) < 4 ∧ (4:ℝ) < 9 ∧ (0:ℝ) < 25/4 ∧
    ((getAmountsForLiquidity (addLiquidityAmounts 6 6 4 9 (25/4)).liquidity
        4 9 (25/4)).baseAmount = (addLiquidityAmounts 6 6 4 9 (25/4)).baseUsed ∧
     (getAmountsForLiquidity (addLiquidityAmounts 6 6 4 9 (25/4)).liquidity
        4 9 (25/4)).quoteAmount = (addLiquidityAmounts 6 6 4 9 (25/4)).quoteUsed) :=
  ⟨by norm_num, by norm_num, by norm_num,
   c5_sizing_roundtrip 6 6 4 9 (25/4) (by norm_num) (by norm_num) (by norm_num)⟩

/-! ## Claim C6: out-of-range accrual is zero -/

/-- C6: if a CL position's vault sees a price strictly outside
`[lower, upper]`, the per-tick accrual leaves both the vault and the running
stats untouched (fees and emissions accrued are exactly 0); moreover
`calculateFeeShare` is 0 outside the range and never exceeds 1. -/
theorem c6_out_of_range_accrual (vault : Eng.VaultState) (pool : PoolSnapshot)
    (lastPrice price dtDays avgW : ℝ) (stats : Eng.RunningStats) (pos : Eng.Position)
    (hpos : vault.position = some pos)
    (hout : price < pos.lower ∨ pos.upper < price) :
    Eng.updateVault vault pool lastPrice price dtDays stats avgW = (vault, stats) ∧
    calculateFeeShare pos.liquidity pos.lower pos.upper pool.liquidityUsd price avgW = 0 ∧
    ∀ L l u tvl p w, calculateFeeShare L l u tvl p w ≤ 1 := by
  refine ⟨?_, ?_, ?_⟩
  · have hnot : ¬(pos.lower ≤ price ∧ price ≤ pos.upper) := by
      rcases hout with h | h
      · exact fun hc => absurd hc.1 (not_le.mpr h)
      · exact fun hc => absurd hc.2 (not_le.mpr h)
    simp only [Eng.updateVault, hpos, if_neg hnot]
  · simp only [calculateFeeShare, if_pos hout]
  · intro L l u tvl p w
    simp only [calculateFeeShare]
    split_ifs
    all_goals first
      | exact zero_le_one
      | exact le_refl 1
      | exact min_le_right _ 1

/-- Witness for C6: a position over `[4, 9]` with the price at `10`. -/
theorem c6_out_of_range_accrual_witness :
    let pos : Eng.Position := ⟨4, 9, 36, 0⟩
    let vault : Eng.VaultState := ⟨1, 1, some pos, 0⟩
    let pool : PoolSnapshot := ⟨.cl, 10, 10, 10, 0, 0, 0, 1000, 1⟩
    let stats : Eng.RunningStats := ⟨0, 0, 0, 0, 0⟩
    Eng.updateVault vault pool 10 10 1 stats 0.2 = (vault, stats) ∧
    calculateFeeShare pos.liquidity pos.lower pos.upper pool.liquidityUsd 10 0.2 = 0 ∧
    ∀ L l u tvl p w, calculateFeeShare L l u tvl p w ≤ 1 :=
  c6_out_of_range_accrual _ _ 10 10 1 0.2 _ _ rfl (by norm_num)

/-! ## Claim C8: max drawdown -/

/-- The drawdown sequence as the spec words it: the running peak is the
maximum value seen so far, and each point contributes
`(runningPeak - value) / runningPeak`. -/
def specDrawdowns : ℝ → List ℝ → List ℝ
  | _, [] => []
  | peak, v :: rest =>
      let peak2 := max peak v
      (peak2 - v) / peak2 :: specDrawdowns peak2 rest

/-- The spec's drawdown formula: maximum drawdown over the curve, as a
percentage; the peak starts at `-∞`, so the first point contributes no
drawdown and the running peak from there on is the first value. -/
def maxDrawdownSpec : List ℝ → ℝ
  | [] => 0
  | v :: rest => 100 * ((specDrawdowns v (v :: rest)).foldl max 0)

theorem ite_lt_eq_max (m dd : ℝ) : (if m < dd then dd else m) = max m dd := by
  rcases le_or_lt dd m with h | h
  · rw [if_neg (not_lt.mpr h), max_eq_left h]
  · rw [if_pos h, max_eq_right h.le]

theorem ddStep_coe (peak m : ℝ) (p : Eng.EquityPoint) (hpk : 0 < peak) :
    Eng.ddStep ((peak : EReal), m) p
      = (((max peak p.valueUsd : ℝ) : EReal),
         max m ((max peak p.valueUsd - p.valueUsd) / max peak p.valueUsd)) := by
  have hmax : 0 < max peak p.valueUsd := lt_of_lt_of_le hpk (le_max_left _ _)
  have hpk2 : (0 : EReal) < ((max peak p.valueUsd : ℝ) : EReal) := by
    exact_mod_cast hmax
  have hpeak : (if (peak : EReal) < (p.valueUsd : EReal) then (p.valueUsd : EReal)
      else (peak : EReal)) = ((max peak p.valueUsd : ℝ) : EReal) := by
    rcases le_or_lt p.valueUsd peak with h | h
    · rw [if_neg (by exact_mod_cast not_lt.mpr h), max_eq_left h]
    · rw [if_pos (by exact_mod_cast h), max_eq_right h.le]
  simp only [Eng.ddStep, hpeak, if_pos hpk2, EReal.toReal_coe, ite_lt_eq_max]

theorem ddFold_spec (l : List Eng.EquityPoint) :
    ∀ peak m : ℝ, 0 < peak →
      (l.foldl Eng.ddStep ((peak : EReal), m)).2
        = (specDrawdowns peak (l.map (·.valueUsd))).foldl max m := by
  induction l with
  | nil => intro peak m _; rfl
  | cons p rest ih =>
      intro peak m hpk
      rw [List.foldl_cons, ddStep_coe peak m p hpk, List.map_cons, specDrawdowns,
        List.foldl_cons]
      exact ih (max peak p.valueUsd) _ (lt_of_lt_of_le hpk (le_max_left _ _))

/-- `computeMaxDrawdown` agrees with the spec's closed-form drawdown for
curves of positive equity values. -/
theorem computeMaxDrawdown_spec (equity : List Eng.EquityPoint)
    (h : ∀ p ∈ equity, 0 < p.valueUsd) :
    Eng.computeMaxDrawdown equity = maxDrawdownSpec (equity.map (·.valueUsd)) := by
  cases equity with
  | nil => simp [Eng.computeMaxDrawdown, maxDrawdownSpec]
  | cons p rest =>
      have hv : 0 < p.valueUsd := h p (List.mem_cons_self _ _)
      have hstep : Eng.ddStep ((⊥ : EReal), (0:ℝ))  p
          = (((p.valueUsd : ℝ) : EReal), (0:ℝ)) := by
        have hcoe : (0 : EReal) < (p.valueUsd : EReal) := by exact_mod_cast hv
        simp only [Eng.ddStep, if_pos (EReal.bot_lt_coe p.valueUsd), if_pos hcoe,
          EReal.toReal_coe, sub_self, zero_div]
        norm_num
      rw [Eng.computeMaxDrawdown, List.foldl_cons, hstep,
        ddFold_spec rest p.valueUsd 0 hv, List.map_cons, maxDrawdownSpec,
        specDrawdowns, max_self, sub_self, zero_div, List.foldl_cons, max_self,
        mul_comm]

/-- C8: `computeMaxDrawdown` equals the spec's formula (maximum over the
curve of `(runningPeak - value)/runningPeak`, as a percentage, with the
first point contributing no drawdown), and on the spec's example
`[100, 120, 90, 150]` it returns `25`. -/
theorem c8_drawdown (equity : List Eng.EquityPoint)
    (h : ∀ p ∈ equity, 0 < p.valueUsd) :
    Eng.computeMaxDrawdown equity = maxDrawdownSpec (equity.map (·.valueUsd)) ∧
    Eng.computeMaxDrawdown
      [⟨0, 100, 100⟩, ⟨1, 120, 120⟩, ⟨2, 90, 90⟩, ⟨3, 150, 150⟩] = 25 := by
  constructor
  · exact computeMaxDrawdown_spec equity h
  · have hpos4 : ∀ p ∈ ([⟨0, 100, 100⟩, ⟨1, 120, 120⟩, ⟨2, 90, 90⟩,
        ⟨3, 150, 150⟩] : List Eng.EquityPoint), 0 < p.valueUsd := by
      intro p hp
      simp only [List.mem_cons, List.not_mem_nil, or_false] at hp
      rcases hp with h' | h' | h' | h'
      all_goals subst h'
      all_goals norm_num
    rw [computeMaxDrawdown_spec _ hpos4]
    simp only [List.map_cons, List.map_nil]
    norm_num [maxDrawdownSpec, specDrawdowns, max_def, List.foldl_cons,
      List.foldl_nil]

/-- Witness for C8 on the spec's example curve. -/
theorem c8_drawdown_witness :
    (∀ p ∈ ([⟨0, 100, 100⟩, ⟨1, 120, 120⟩, ⟨2, 90, 90⟩, ⟨3, 150, 150⟩] :
        List Eng.EquityPoint), 0 < p.valueUsd) ∧
    Eng.computeMaxDrawdown
      [⟨0, 100, 100⟩, ⟨1, 120, 120⟩, ⟨2, 90, 90⟩, ⟨3, 150, 150⟩] = 25 := by
  have hpos : ∀ p ∈ ([⟨0, 100, 100⟩, ⟨1, 120, 120⟩, ⟨2, 90, 90⟩, ⟨3, 150, 150⟩] :
      List Eng.EquityPoint), 0 < p.valueUsd := by
    intro p hp
    simp only [List.mem_cons, List.not_mem_nil, or_false] at hp
    rcases hp with h' | h' | h' | h' <;> subst h' <;> norm_num
  exact ⟨hpos, (c8_drawdown _ hpos).2⟩

/-! ## Claim C4: balances never negative -/

theorem getAmountsForLiquidity_nonneg (L lower upper price : ℝ)
    (hl : 0 < lower) (hlu : lower ≤ upper) (hL : 0 ≤ L) :
    0 ≤ (getAmountsForLiquidity L lower upper price).baseAmount ∧
    0 ≤ (getAmountsForLiquidity L lower upper price).quoteAmount := by
  have hsl : 0 < Real.sqrt lower := Real.sqrt_pos.mpr hl
  have hslu : Real.sqrt lower ≤ Real.sqrt upper := Real.sqrt_le_sqrt hlu
  unfold getAmountsForLiquidity
  by_cases h1 : price ≤ lower
  · rw [if_pos h1]
    exact ⟨mul_nonneg hL (sub_nonneg.mpr (one_div_le_one_div_of_le hsl hslu)),
      le_refl 0⟩
  · by_cases h2 : upper ≤ price
    · rw [if_neg h1, if_pos h2]
      exact ⟨le_refl 0, mul_nonneg hL (sub_nonneg.mpr hslu)⟩
    · push_neg at h1 h2
      have hsp : 0 < Real.sqrt price := Real.sqrt_pos.mpr (hl.trans h1)
      rw [if_neg (not_le.mpr h1), if_neg (not_le.mpr h2)]
      constructor
      · exact mul_nonneg hL (sub_nonneg.mpr
          (one_div_le_one_div_of_le hsp (Real.sqrt_le_sqrt h2.le)))
      · exact mul_nonneg hL (sub_nonneg.mpr (Real.sqrt_le_sqrt h1.le))

theorem addLiquidityAmounts_le (base quote lower upper price : ℝ)
    (hl : 0 < lower) (hb : 0 ≤ base) (hq : 0 ≤ quote) :
    (addLiquidityAmounts base quote lower upper price).baseUsed ≤ base ∧
    (addLiquidityAmounts base quote lower upper price).quoteUsed ≤ quote := by
  unfold addLiquidityAmounts
  by_cases h1 : price ≤ lower
  · rw [if_pos h1]; exact ⟨le_refl base, hq⟩
  · by_cases h2 : upper ≤ price
    · rw [if_neg h1, if_pos h2]; exact ⟨hb, le_refl quote⟩
    · push_neg at h1 h2
      have heff : max lower (min upper price) = price := by
        rw [min_eq_right h2.le, max_eq_right h1.le]
      have hsp : 0 < Real.sqrt price := Real.sqrt_pos.mpr (hl.trans h1)
      have hbd : 0 < 1 / Real.sqrt price - 1 / Real.sqrt upper :=
        sub_pos.mpr (one_div_lt_one_div_of_lt hsp
          (Real.sqrt_lt_sqrt (hl.trans h1).le h2))
      have hqd : 0 < Real.sqrt price - Real.sqrt lower :=
        sub_pos.mpr (Real.sqrt_lt_sqrt hl.le h1)
      rw [if_neg (not_le.mpr h1), if_neg (not_le.mpr h2)]
      simp only [heff, if_pos hbd, if_pos hqd]
      constructor
      · calc min (base / (1 / Real.sqrt price - 1 / Real.sqrt upper))
              (quote / (Real.sqrt price - Real.sqrt lower))
              * (1 / Real.sqrt price - 1 / Real.sqrt upper)
            ≤ base / (1 / Real.sqrt price - 1 / Real.sqrt upper)
              * (1 / Real.sqrt price - 1 / Real.sqrt upper) := by
              exact mul_le_mul_of_nonneg_right (min_le_left _ _) hbd.le
          _ = base := div_mul_cancel₀ base (ne_of_gt hbd)
      · calc min (base / (1 / Real.sqrt price - 1 / Real.sqrt upper))
              (quote / (Real.sqrt price - Real.sqrt lower))
              * (Real.sqrt price - Real.sqrt lower)
            ≤ quote / (Real.sqrt price - Real.sqrt lower)
              * (Real.sqrt price - Real.sqrt lower) := by
              exact mul_le_mul_of_nonneg_right (min_le_right _ _) hqd.le
          _ = quote := div_mul_cancel₀ quote (ne_of_gt hqd)

/-- C4 counterexample: `swapInventory` can drive the quote balance negative.
With `price = 1`, pool liquidity `1` USD and `impactBps = 10000`, selling 10
base units yields an effective price of `-999`, so a vault that starts with
non-negative balances `(10, 0)` ends with `quoteBalance = -9990 < 0`,
refuting the claim that every vault-state-machine operation keeps balances
non-negative. -/
theorem c4_counterexample :
    (Eng.swapInventory ⟨10, 0, none, 0⟩ 1 .base 10 1 0 10000).quoteBalance < 0 := by
  norm_num [Eng.swapInventory, getEffectiveSwapPrice, min_self]

/-- C4 amended: every vault-state-machine operation preserves non-negative
balances, with the proviso (forced by the counterexample) that a swap's
effective price after spread and impact is non-negative, and that the open
position is well-formed for remove/add.  Gas/MEV shortfalls drain the quote
balance to zero and convert the remainder into a base deduction at the
current price, floored at zero. -/
theorem c4_balances_nonneg (v : Eng.VaultState)
    (hb : 0 ≤ v.baseBalance) (hq : 0 ≤ v.quoteBalance) :
    (∀ gas price, 0 ≤ (Eng.deductGas v gas price).baseBalance ∧
       0 ≤ (Eng.deductGas v gas price).quoteBalance) ∧
    (∀ gas price, 0 < gas → v.quoteBalance < gas →
       Eng.deductGas v gas price
         = { v with
             quoteBalance := 0
             baseBalance := max 0 (v.baseBalance - (gas - v.quoteBalance) / price) }) ∧
    (0 ≤ (Eng.claimRewards v).baseBalance ∧ 0 ≤ (Eng.claimRewards v).quoteBalance) ∧
    (∀ price percent pos, v.position = some pos → 0 < pos.lower →
       pos.lower ≤ pos.upper → 0 ≤ pos.liquidity →
       0 ≤ (Eng.removeLiquidity v price percent).baseBalance ∧
       0 ≤ (Eng.removeLiquidity v price percent).quoteBalance) ∧
    (∀ price lower upper amountUsd ts, 0 < lower →
       0 ≤ (Eng.addLiquidity v price lower upper amountUsd ts).baseBalance ∧
       0 ≤ (Eng.addLiquidity v price lower upper amountUsd ts).quoteBalance) ∧
    (∀ price amount poolLiq spreadBps impactBps,
       0 ≤ getEffectiveSwapPrice price (min amount v.baseBalance * price) poolLiq false
         spreadBps impactBps →
       0 ≤ (Eng.swapInventory v price .base amount poolLiq spreadBps impactBps).baseBalance ∧
       0 ≤ (Eng.swapInventory v price .base amount poolLiq spreadBps impactBps).quoteBalance) ∧
    (∀ price amount poolLiq spreadBps impactBps,
       0 ≤ getEffectiveSwapPrice price (min amount v.quoteBalance) poolLiq true
         spreadBps impactBps →
       0 ≤ (Eng.swapInventory v price .quote amount poolLiq spreadBps impactBps).baseBalance ∧
       0 ≤ (Eng.swapInventory v price .quote amount poolLiq spreadBps impactBps).quoteBalance) := by
  refine ⟨?_, ?_, ?_, ?_, ?_, ?_, ?_⟩
  · intro gas price
    unfold Eng.deductGas
    split_ifs with h1 h2
    · exact ⟨hb, hq⟩
    · exact ⟨hb, sub_nonneg.mpr h2⟩
    · exact ⟨le_max_left 0 _, le_refl 0⟩
  · intro gas price hgas hshort
    unfold Eng.deductGas
    rw [if_neg (not_le.mpr hgas), if_neg (not_le.mpr hshort)]
  · unfold Eng.claimRewards
    split_ifs with h1
    · exact ⟨hb, hq⟩
    · exact ⟨hb, le_trans hq (le_add_of_nonneg_right (le_of_lt (not_le.mp h1)))⟩
  · intro price percent pos hpos hl hlu hL
    have hamts := getAmountsForLiquidity_nonneg _ _ _ price hl hlu hL
    have hcl : 0 ≤ clamp percent 0 1 := le_max_left 0 _
    unfold Eng.removeLiquidity
    rw [hpos]
    exact ⟨add_nonneg hb (mul_nonneg hamts.1 hcl),
      add_nonneg hq (mul_nonneg hamts.2 hcl)⟩
  · intro price lower upper amountUsd ts hl
    have hle := addLiquidityAmounts_le _ _ _ upper price hl hb hq
    simp only [Eng.addLiquidity]
    split_ifs with h1
    · exact ⟨hb, hq⟩
    · exact ⟨sub_nonneg.mpr hle.1, sub_nonneg.mpr hle.2⟩
  · intro price amount poolLiq spreadBps impactBps heff
    unfold Eng.swapInventory
    split_ifs with h1
    · exact ⟨hb, hq⟩
    · have hamt : 0 ≤ min amount v.baseBalance := le_min (not_le.mp h1).le hb
      exact ⟨sub_nonneg.mpr (min_le_right _ _),
        add_nonneg hq (mul_nonneg hamt heff)⟩
  · intro price amount poolLiq spreadBps impactBps heff
    unfold Eng.swapInventory
    split_ifs with h1
    · exact ⟨hb, hq⟩
    · have hamt : 0 ≤ min amount v.quoteBalance := le_min (not_le.mp h1).le hq
      exact ⟨add_nonneg hb (div_nonneg hamt heff),
        sub_nonneg.mpr (min_le_right _ _)⟩

/-- Witness for C4 at a concrete vault. -/
theorem c4_balances_nonneg_witness :
    (0:ℝ) ≤ 1 ∧
    (0 ≤ (Eng.deductGas ⟨1, 1, none, 5⟩ 3 2).baseBalance ∧
     0 ≤ (Eng.deductGas ⟨1, 1, none, 5⟩ 3 2).quoteBalance) :=
  ⟨by norm_num,
   (c4_balances_nonneg ⟨1, 1, none, 5⟩ (by norm_num) (by norm_num)).1 3 2⟩

/-! ## Claim C2: value conservation under applied decisions -/

theorem removeLiquidity_full (v : Eng.VaultState) (price : ℝ) :
    Eng.totalVaultValue (Eng.removeLiquidity v price 1) price
      = Eng.totalVaultValue v price ∧
    (Eng.removeLiquidity v price 1).position = none := by
  cases hpos : v.position with
  | none =>
      simp only [Eng.removeLiquidity, hpos]
      exact ⟨trivial, trivial⟩
  | some pos =>
      have hclamp : clamp 1 0 1 = 1 := by norm_num [clamp]
      have hzero : pos.liquidity * (1 - clamp 1 0 1) ≤ 0.01 := by
        rw [hclamp]; norm_num
      simp only [Eng.removeLiquidity, hpos, if_pos hzero]
      refine ⟨?_, trivial⟩
      simp only [Eng.totalVaultValue, hpos, getPositionValueUsd, hclamp]
      ring

theorem addLiquidity_conserves (v : Eng.VaultState)
    (price lower upper amountUsd ts : ℝ)
    (hpos : v.position = none) (hl : 0 < lower) (hlu : lower < upper) :
    Eng.totalVaultValue (Eng.addLiquidity v price lower upper amountUsd ts) price
      = Eng.totalVaultValue v price := by
  have hrt := addLiquidityAmounts_roundtrip v.baseBalance v.quoteBalance lower upper
    price hl hlu
  simp only [Eng.addLiquidity]
  split_ifs with h1
  · rfl
  · simp only [Eng.totalVaultValue, hpos, getPositionValueUsd]
    rw [hrt.1, hrt.2]
    ring

theorem deductGas_conserves (v : Eng.VaultState) (g price : ℝ)
    (hg : 0 ≤ g) (hqg : g ≤ v.quoteBalance) :
    Eng.totalVaultValue (Eng.deductGas v g price) price
      = Eng.totalVaultValue v price - g ∧
    (Eng.deductGas v g price).position = v.position ∧
    (Eng.deductGas v g price).quoteBalance = v.quoteBalance - g := by
  unfold Eng.deductGas
  by_cases h1 : g ≤ 0
  · have hz : g = 0 := le_antisymm h1 hg
    rw [if_pos h1]
    subst hz
    exact ⟨by rw [sub_zero], rfl, by rw [sub_zero]⟩
  · rw [if_neg h1, if_pos hqg]
    refine ⟨?_, rfl, rfl⟩
    simp only [Eng.totalVaultValue]
    ring

theorem estimateMevCost_nonneg (t pool vol mevBps : ℝ) (hmb : 0 ≤ mevBps) :
    0 ≤ estimateMevCost t pool vol mevBps := by
  simp only [estimateMevCost]
  split_ifs with h1 h2
  · exact le_refl 0
  · push_neg at h1
    have ht : 0 < t := h1.1
    have hpool : 0 < pool := h1.2
    have hlog : 0 ≤ Real.logb 10 (1 + t / pool * 100) :=
      Real.logb_nonneg (by norm_num)
        (le_add_of_nonneg_right (mul_nonneg (div_nonneg ht.le hpool.le) (by norm_num)))
    have hsf : 0 ≤ min 2 (1 + Real.logb 10 (1 + t / pool * 100)) :=
      le_min (by norm_num) (add_nonneg zero_le_one hlog)
    have hvf : 0 ≤ max 0.5 (min 2 (vol / 0.5)) :=
      le_trans (by norm_num) (le_max_left _ _)
    exact mul_nonneg ht.le (mul_nonneg (mul_nonneg (mul_nonneg
      (div_nonneg hmb (by norm_num)) hsf) hvf) (div_nonneg ht.le (by norm_num)))
  · push_neg at h1
    have ht : 0 < t := h1.1
    have hpool : 0 < pool := h1.2
    have hlog : 0 ≤ Real.logb 10 (1 + t / pool * 100) :=
      Real.logb_nonneg (by norm_num)
        (le_add_of_nonneg_right (mul_nonneg (div_nonneg ht.le hpool.le) (by norm_num)))
    have hsf : 0 ≤ min 2 (1 + Real.logb 10 (1 + t / pool * 100)) :=
      le_min (by norm_num) (add_nonneg zero_le_one hlog)
    have hvf : 0 ≤ max 0.5 (min 2 (vol / 0.5)) :=
      le_trans (by norm_num) (le_max_left _ _)
    exact mul_nonneg ht.le (mul_nonneg (mul_nonneg (mul_nonneg
      (div_nonneg hmb (by norm_num)) hsf) hvf) zero_le_one)

/-- C2 counterexample: applying a `CLAIM_REWARDS` decision changes the total
vault value by more than the reported gas/MEV deduction, because unclaimed
rewards are not part of `totalVaultValue` and claiming moves them into the
quote balance.  Vault `(0 base, 100 quote, 50 rewards)`, gas `1`: value goes
from `100` to `149`, while the claim predicts `99`. -/
theorem c2_counterexample :
    Eng.totalVaultValue
        (Eng.applyDecision ⟨0, 100, none, 50⟩ ⟨.volatile, 1, 1, 1, 0, 0, 0, 1000, 1⟩
          ⟨true, 0, "Compound emissions", [.claimRewards 50], some "reward-compound"⟩
          ⟨0, 0, 0, 0, 0⟩ 0 10 5 30).1 1
      ≠ Eng.totalVaultValue ⟨0, 100, none, 50⟩ 1
          - ((Eng.applyDecision ⟨0, 100, none, 50⟩ ⟨.volatile, 1, 1, 1, 0, 0, 0, 1000, 1⟩
              ⟨true, 0, "Compound emissions", [.claimRewards 50], some "reward-compound"⟩
              ⟨0, 0, 0, 0, 0⟩ 0 10 5 30).2.1.gasUsd - 0)
          - ((Eng.applyDecision ⟨0, 100, none, 50⟩ ⟨.volatile, 1, 1, 1, 0, 0, 0, 1000, 1⟩
              ⟨true, 0, "Compound emissions", [.claimRewards 50], some "reward-compound"⟩
              ⟨0, 0, 0, 0, 0⟩ 0 10 5 30).2.1.mevUsd - 0) := by
  norm_num [Eng.applyDecision, Eng.tradeValueUsd, Eng.tradeValueStep,
    estimateMevCost, Eng.deductGas, Eng.claimRewards, Eng.applyAction,
    Eng.totalVaultValue, Action.isReal, List.any_cons, List.any_nil,
    List.foldl_cons, List.foldl_nil]

/-- C2 amended: for the engine's CL rebalance pattern — a decision whose
actions are `REMOVE_LIQUIDITY(100%)` followed by `ADD_LIQUIDITY(lower,upper)`
over a well-formed range — and a quote balance covering the gas and MEV
charges, `applyDecision` changes the total vault value by exactly the gas
plus MEV deduction; `CLAIM_REWARDS` additionally adds the claimed rewards
(excluded from `totalVaultValue`) and `SWAP` additionally loses slippage,
as the counterexample forces. -/
theorem c2_value_conservation (v : Eng.VaultState) (pool : PoolSnapshot)
    (dec : StrategyDecision) (stats : Eng.RunningStats)
    (ts spreadBps impactBps mevBps l u a : ℝ)
    (hdec : dec.actions = [.removeLiquidity 1, .addLiquidity l u a])
    (hl : 0 < l) (hlu : l < u) (hg : 0 ≤ pool.gasUsd) (hmb : 0 ≤ mevBps)
    (hqg : pool.gasUsd ≤ v.quoteBalance)
    (hqm : estimateMevCost (Eng.tradeValueUsd v pool dec.actions)
        pool.liquidityUsd pool.vol mevBps ≤ v.quoteBalance - pool.gasUsd) :
    Eng.totalVaultValue
        (Eng.applyDecision v pool dec stats ts spreadBps impactBps mevBps).1 pool.price
      = Eng.totalVaultValue v pool.price - pool.gasUsd
        - estimateMevCost (Eng.tradeValueUsd v pool dec.actions)
            pool.liquidityUsd pool.vol mevBps := by
  have hmev : 0 ≤ estimateMevCost (Eng.tradeValueUsd v pool dec.actions)
      pool.liquidityUsd pool.vol mevBps :=
    estimateMevCost_nonneg _ _ _ _ hmb
  have h1 := deductGas_conserves v pool.gasUsd pool.price hg hqg
  have hcond : (¬([Action.removeLiquidity 1, Action.addLiquidity l u a].any
      fun x => x.isReal) = true) = False := by
    simp [Action.isReal]
  simp only [Eng.applyDecision, hdec, hcond, if_false, List.foldl_cons,
    List.foldl_nil, Eng.applyAction]
  by_cases hmc : 0 < estimateMevCost (Eng.tradeValueUsd v pool dec.actions)
      pool.liquidityUsd pool.vol mevBps
  · rw [hdec] at hmc
    rw [if_pos hmc]
    have h2 := deductGas_conserves (Eng.deductGas v pool.gasUsd pool.price)
      (estimateMevCost (Eng.tradeValueUsd v pool [.removeLiquidity 1, .addLiquidity l u a])
        pool.liquidityUsd pool.vol mevBps) pool.price
      (by rw [← hdec]; exact hmev)
      (by rw [h1.2.2, ← hdec]; exact hqm)
    rw [addLiquidity_conserves _ _ _ _ _ _ (removeLiquidity_full _ _).2 hl hlu,
      (removeLiquidity_full _ _).1, h2.1, h1.1]
  · rw [hdec] at hmc
    rw [if_neg hmc]
    have hz : estimateMevCost
        (Eng.tradeValueUsd v pool [.removeLiquidity 1, .addLiquidity l u a])
        pool.liquidityUsd pool.vol mevBps = 0 := by
      rw [← hdec]
      exact le_antisymm (by rw [hdec]; exact not_lt.mp hmc) hmev
    rw [addLiquidity_conserves _ _ _ _ _ _ (removeLiquidity_full _ _).2 hl hlu,
      (removeLiquidity_full _ _).1, h1.1, hz, sub_zero]

/-- Witness for C2 at a concrete rebalance decision. -/
theorem c2_value_conservation_witness :
    let v : Eng.VaultState := ⟨0, 1000, none, 0⟩
    let pool : PoolSnapshot := ⟨.cl, 1, 1, 1, 0, 0, 0, 1000, 10⟩
    let dec : StrategyDecision :=
      ⟨true, 0, "rebalance", [.removeLiquidity 1, .addLiquidity 4 9 0], none⟩
    Eng.totalVaultValue (Eng.applyDecision v pool dec ⟨0, 0, 0, 0, 0⟩ 0 10 5 0).1 1
      = Eng.totalVaultValue v 1 - 10
        - estimateMevCost (Eng.tradeValueUsd v pool dec.actions) 1000 0 0 := by
  intro v pool dec
  have h := c2_value_conservation v pool dec ⟨0, 0, 0, 0, 0⟩ 0 10 5 0 4 9 0 rfl
    (by norm_num) (by norm_num) (by norm_num) (by norm_num) (by norm_num)
    (by
      have hz : Eng.tradeValueUsd v pool dec.actions = 0 := by
        norm_num [Eng.tradeValueUsd, Eng.tradeValueStep, List.foldl]
      rw [hz]
      norm_num [estimateMevCost])
  exact h

/-! ## Claim C10: `amountUsd` independence of ADD_LIQUIDITY -/

theorem estimateMevCost_zero_bps (t pl vol : ℝ) : estimateMevCost t pl vol 0 = 0 := by
  simp only [estimateMevCost]
  split_ifs <;> ring

/-- C10 amended: the `addLiquidity` state transition itself is independent of
the action's `amountUsd` (liquidity is always sized from the full available
balances), and the full `applyDecision` is independent of `amountUsd` once
the MEV deduction is switched off (`mevBps = 0`); with `mevBps > 0` the MEV
charge scales with `amountUsd`, as the counterexample shows. -/
theorem c10_addliquidity_ignores_amount (v : Eng.VaultState) (pool : PoolSnapshot)
    (stats : Eng.RunningStats) (price lower upper ts spreadBps impactBps a1 a2 : ℝ)
    (sb : Bool) (sc : EReal) (sr : String) (sn : Option String) :
    Eng.addLiquidity v price lower upper a1 ts
      = Eng.addLiquidity v price lower upper a2 ts ∧
    (Eng.applyDecision v pool ⟨sb, sc, sr, [.addLiquidity lower upper a1], sn⟩ stats ts
        spreadBps impactBps 0).1
      = (Eng.applyDecision v pool ⟨sb, sc, sr, [.addLiquidity lower upper a2], sn⟩ stats ts
        spreadBps impactBps 0).1 := by
  constructor
  · rfl
  · have hcond1 : (¬([Action.addLiquidity lower upper a1].any fun x => x.isReal)
        = true) = False := by simp [Action.isReal]
    have hcond2 : (¬([Action.addLiquidity lower upper a2].any fun x => x.isReal)
        = true) = False := by simp [Action.isReal]
    simp only [Eng.applyDecision, hcond1, hcond2, if_false, estimateMevCost_zero_bps,
      lt_self_iff_false, List.foldl_cons, List.foldl_nil, Eng.applyAction]
    rfl

/-- C10 counterexample: with the engine's default `mevBps = 30`, two
`ADD_LIQUIDITY` actions differing only in `amountUsd` (1,000,000 vs 0)
produce different vault states, because the MEV deduction is estimated from
`amountUsd × 0.1`: the large action pays a 600 USD MEV charge the zero
action does not. -/
theorem c10_counterexample :
    (Eng.applyDecision ⟨6, 1000000, none, 0⟩ ⟨.cl, 1, 1, 1, 0.5, 0, 0, 1000, 10⟩
        ⟨true, 0, "r", [.addLiquidity 4 9 1000000], none⟩ ⟨0, 0, 0, 0, 0⟩ 0 10 5 30).1
      ≠ (Eng.applyDecision ⟨6, 1000000, none, 0⟩ ⟨.cl, 1, 1, 1, 0.5, 0, 0, 1000, 10⟩
        ⟨true, 0, "r", [.addLiquidity 4 9 0], none⟩ ⟨0, 0, 0, 0, 0⟩ 0 10 5 30).1 := by
  have haddq : ∀ (v1 : Eng.VaultState) (a ts : ℝ),
      (Eng.addLiquidity v1 1 4 9 a ts).quoteBalance = v1.quoteBalance := by
    intro v1 a ts
    simp only [Eng.addLiquidity, addLiquidityAmounts, if_pos (by norm_num : (1:ℝ) ≤ 4)]
    split_ifs
    · rfl
    · exact sub_zero _
  have h10 : (1:ℝ) < 10 := by norm_num
  have hlogb : (1:ℝ) ≤ Real.logb 10 (1 + 100000 / 1000 * 100) := by
    have hm := Real.logb_le_logb_of_le h10 (by norm_num : (0:ℝ) < 10)
      (by norm_num : (10:ℝ) ≤ 1 + 100000 / 1000 * 100)
    rwa [Real.logb_self_eq_one h10] at hm
  have hsf : min 2 (1 + Real.logb 10 (1 + 100000 / 1000 * 100)) = 2 :=
    min_eq_left (by linarith)
  have hmev : estimateMevCost 100000 1000 0.5 30 = 600 := by
    simp only [estimateMevCost]
    rw [if_neg (by norm_num), if_neg (by norm_num : ¬(100000:ℝ) < 500), hsf]
    norm_num [max_def, min_def]
  have htv : Eng.tradeValueUsd ⟨6, 1000000, none, 0⟩
      ⟨.cl, 1, 1, 1, 0.5, 0, 0, 1000, 10⟩ [Action.addLiquidity 4 9 1000000]
      = 100000 := by
    norm_num [Eng.tradeValueUsd, Eng.tradeValueStep, List.foldl_cons, List.foldl_nil]
  have htv0 : Eng.tradeValueUsd ⟨6, 1000000, none, 0⟩
      ⟨.cl, 1, 1, 1, 0.5, 0, 0, 1000, 10⟩ [Action.addLiquidity 4 9 0] = 0 := by
    norm_num [Eng.tradeValueUsd, Eng.tradeValueStep, List.foldl_cons, List.foldl_nil]
  have hcondB : (¬([Action.addLiquidity 4 9 (1000000:ℝ)].any fun x => x.isReal)
      = true) = False := by simp [Action.isReal]
  have hcondA : (¬([Action.addLiquidity 4 9 (0:ℝ)].any fun x => x.isReal)
      = true) = False := by simp [Action.isReal]
  have hB : (Eng.applyDecision ⟨6, 1000000, none, 0⟩ ⟨.cl, 1, 1, 1, 0.5, 0, 0, 1000, 10⟩
      ⟨true, 0, "r", [.addLiquidity 4 9 1000000], none⟩
      ⟨0, 0, 0, 0, 0⟩ 0 10 5 30).1.quoteBalance = 1000000 - 10 - 600 := by
    simp only [Eng.applyDecision, hcondB, if_false, List.foldl_cons, List.foldl_nil,
      Eng.applyAction, htv, hmev, if_pos (by norm_num : (0:ℝ) < 600)]
    rw [haddq]
    simp only [Eng.deductGas]
    rw [if_neg (by norm_num : ¬(10:ℝ) ≤ 0), if_pos (by norm_num : (10:ℝ) ≤ 1000000)]
    rw [if_neg (by norm_num : ¬(600:ℝ) ≤ 0)]
    rw [if_pos (by norm_num : (600:ℝ) ≤ 1000000 - 10)]
  have hA : (Eng.applyDecision ⟨6, 1000000, none, 0⟩ ⟨.cl, 1, 1, 1, 0.5, 0, 0, 1000, 10⟩
      ⟨true, 0, "r", [.addLiquidity 4 9 0], none⟩
      ⟨0, 0, 0, 0, 0⟩ 0 10 5 30).1.quoteBalance = 1000000 - 10 := by
    have hm0 : estimateMevCost 0 1000 0.5 30 = 0 := by
      simp only [estimateMevCost]
      rw [if_pos (Or.inl (le_refl 0))]
    simp only [Eng.applyDecision, hcondA, if_false, List.foldl_cons, List.foldl_nil,
      Eng.applyAction, htv0, hm0, if_neg (lt_irrefl (0:ℝ)), List.foldl_nil]
    rw [haddq]
    simp only [Eng.deductGas]
    rw [if_neg (by norm_num : ¬(10:ℝ) ≤ 0), if_pos (by norm_num : (10:ℝ) ≤ 1000000)]
  intro h
  rw [congrArg Eng.VaultState.quoteBalance h] at hB
  rw [hA] at hB
  norm_num at hB

/-! ## Claim C3: runner selection -/

theorem markDecision_score {Ctx : Type} (s : Strategy Ctx) (ctx : Ctx) :
    ({ s.decide ctx with strategy := some s.name } : StrategyDecision).score
      = (s.decide ctx).score := rfl

theorem pickBestAux_cases {Ctx : Type} (ctx : Ctx) :
    ∀ (l : List (Strategy Ctx)) (best : StrategyDecision),
    (pickBestAux ctx l best = best ∧
      ∀ s ∈ l, (s.decide ctx).shouldRebalance = true →
        (s.decide ctx).score ≤ best.score) ∨
    (∃ pre s post, l = pre ++ s :: post ∧
      (s.decide ctx).shouldRebalance = true ∧
      pickBestAux ctx l best = { s.decide ctx with strategy := some s.name } ∧
      best.score < (s.decide ctx).score ∧
      (∀ t ∈ pre, (t.decide ctx).shouldRebalance = true →
        (t.decide ctx).score < (s.decide ctx).score) ∧
      (∀ t ∈ post, (t.decide ctx).shouldRebalance = true →
        (t.decide ctx).score ≤ (s.decide ctx).score)) := by
  intro l
  induction l with
  | nil =>
      intro best
      left
      exact ⟨rfl, by simp⟩
  | cons s rest ih =>
      intro best
      by_cases hc : (s.decide ctx).shouldRebalance = true ∧
          best.score < (s.decide ctx).score
      · have hstep : pickBestAux ctx (s :: rest) best
            = pickBestAux ctx rest { s.decide ctx with strategy := some s.name } := by
          simp only [pickBestAux, if_pos hc]
        rcases ih { s.decide ctx with strategy := some s.name } with
          ⟨heq, hall⟩ | ⟨pre, s', post, hsplit, hact, heq, hlt, hpre, hpost⟩
        · right
          refine ⟨[], s, rest, rfl, hc.1, by rw [hstep, heq], hc.2, by simp, ?_⟩
          intro t ht hta
          have h := hall t ht hta
          rwa [markDecision_score] at h
        · rw [markDecision_score] at hlt
          right
          refine ⟨s :: pre, s', post, by rw [hsplit, List.cons_append], hact,
            by rw [hstep, heq], lt_trans hc.2 hlt, ?_, hpost⟩
          intro t ht hta
          rcases List.mem_cons.mp ht with rfl | htpre
          · exact hlt
          · exact hpre t htpre hta
      · have hstep : pickBestAux ctx (s :: rest) best = pickBestAux ctx rest best := by
          simp only [pickBestAux, if_neg hc]
        rcases ih best with
          ⟨heq, hall⟩ | ⟨pre, s', post, hsplit, hact, heq, hlt, hpre, hpost⟩
        · left
          refine ⟨by rw [hstep, heq], ?_⟩
          intro t ht hta
          rcases List.mem_cons.mp ht with rfl | htpre
          · by_contra hgt
            exact hc ⟨hta, not_le.mp hgt⟩
          · exact hall t htpre hta
        · right
          refine ⟨s :: pre, s', post, by rw [hsplit, List.cons_append], hact,
            by rw [hstep, heq], hlt, ?_, hpost⟩
          intro t ht hta
          rcases List.mem_cons.mp ht with rfl | htpre
          · have hle : (t.decide ctx).score ≤ best.score := by
              by_contra hgt
              exact hc ⟨hta, not_le.mp hgt⟩
            exact lt_of_le_of_lt hle hlt
          · exact hpre t htpre hta

theorem actionable_score_ne_bot (ctx : StratM.StrategyContext) :
    ∀ s ∈ StratM.createDefaultStrategies, (s.decide ctx).shouldRebalance = true →
      (s.decide ctx).score ≠ ⊥ := by
  intro s hs
  simp only [StratM.createDefaultStrategies, List.mem_cons, List.not_mem_nil,
    or_false] at hs
  rcases hs with h | h | h | h
  all_goals subst h
  all_goals
    simp only [StratM.rangeAroundTWAPDecide, StratM.trendSkewDecide,
      StratM.inventoryTargetDecide, StratM.rewardCompoundDecide]
  all_goals split_ifs
  all_goals simp [noopDecision]
  all_goals rw [← EReal.coe_sub]
  all_goals exact EReal.coe_ne_bot _

/-- C3: over the default registration order (range-around-twap, trend-skew,
inventory-target, reward-compound), `pickBest` returns a non-actionable
decision exactly when every evaluator declined; in that case it is the
`score = -∞`, NOOP sentinel; otherwise it returns the first actionable
decision (in registration order) of maximal score, tagged with its
strategy's name. -/
theorem c3_runner_selection (ctx : StratM.StrategyContext) :
    ((pickBest StratM.createDefaultStrategies ctx).shouldRebalance = false ↔
      ∀ s ∈ StratM.createDefaultStrategies, (s.decide ctx).shouldRebalance = false) ∧
    ((pickBest StratM.createDefaultStrategies ctx).shouldRebalance = false →
      pickBest StratM.createDefaultStrategies ctx = noopDecision "No strategies") ∧
    ((pickBest StratM.createDefaultStrategies ctx).shouldRebalance = true →
      ∃ pre s post, StratM.createDefaultStrategies = pre ++ s :: post ∧
        (s.decide ctx).shouldRebalance = true ∧
        pickBest StratM.createDefaultStrategies ctx
          = { s.decide ctx with strategy := some s.name } ∧
        (∀ t ∈ pre, (t.decide ctx).shouldRebalance = true →
          (t.decide ctx).score < (s.decide ctx).score) ∧
        (∀ t ∈ post, (t.decide ctx).shouldRebalance = true →
          (t.decide ctx).score ≤ (s.decide ctx).score)) := by
  have hscore := actionable_score_ne_bot ctx
  rcases pickBestAux_cases ctx StratM.createDefaultStrategies
      (noopDecision "No strategies") with
    ⟨heq, hall⟩ | ⟨pre, s, post, hsplit, hact, heq, hlt, hpre, hpost⟩
  · have hfalse : (pickBest StratM.createDefaultStrategies ctx).shouldRebalance
        = false := by
      rw [pickBest, heq]
      rfl
    refine ⟨?_, ?_, ?_⟩
    · rw [hfalse]
      constructor
      · intro _ s hs
        rcases Bool.eq_false_or_eq_true ((s.decide ctx).shouldRebalance) with h | h
        · exact absurd (le_bot_iff.mp (hall s hs h)) (hscore s hs h)
        · exact h
      · intro _
        rfl
    · intro _
      rw [pickBest, heq]
    · intro htrue
      rw [hfalse] at htrue
      exact absurd htrue (by simp)
  · have heqP : pickBest StratM.createDefaultStrategies ctx
        = { s.decide ctx with strategy := some s.name } := by
      rw [pickBest, heq]
    have htrue : (pickBest StratM.createDefaultStrategies ctx).shouldRebalance
        = true := by
      rw [heqP]
      exact hact
    refine ⟨?_, ?_, ?_⟩
    · constructor
      · intro hf
        rw [htrue] at hf
        exact absurd hf (by simp)
      · intro hallf
        have hs_mem : s ∈ StratM.createDefaultStrategies := by
          rw [hsplit]
          exact List.mem_append_right _ (List.mem_cons_self _ _)
        rw [hallf s hs_mem] at hact
        exact absurd hact (by simp)
    · intro hf
      rw [htrue] at hf
      exact absurd hf (by simp)
    · intro _
      exact ⟨pre, s, post, hsplit, hact, heqP, hpre, hpost⟩

/-- Witness for C3 at a context where every evaluator declines. -/
theorem c3_runner_selection_witness :
    pickBest StratM.createDefaultStrategies
      ⟨⟨.volatile, 1, 1, 1, 0, 0, 0, 1000, 1⟩, ⟨0, 0, none, 0⟩,
        ⟨1.5, 12, 1.2, 0.01, 0.25, 0.03, 0.006, 0.04, 50, none, none, none, none⟩, 0⟩
      = noopDecision "No strategies" := by
  have hall : ∀ s ∈ StratM.createDefaultStrategies,
      (s.decide ⟨⟨.volatile, 1, 1, 1, 0, 0, 0, 1000, 1⟩, ⟨0, 0, none, 0⟩,
        ⟨1.5, 12, 1.2, 0.01, 0.25, 0.03, 0.006, 0.04, 50, none, none, none, none⟩,
        0⟩).shouldRebalance = false := by
    intro s hs
    simp only [StratM.createDefaultStrategies, List.mem_cons, List.not_mem_nil,
      or_false] at hs
    rcases hs with h | h | h | h
    all_goals subst h
    · simp [StratM.rangeAroundTWAPDecide, noopDecision]
    · simp [StratM.trendSkewDecide, noopDecision]
    · norm_num [StratM.inventoryTargetDecide, noopDecision]
      split_ifs <;> rfl
    · norm_num [StratM.rewardCompoundDecide, noopDecision]
  exact (c3_runner_selection _).2.1 ((c3_runner_selection _).1.mpr hall)

/-! ## Claim C7: Range-Around-TWAP trigger -/

/-- The claim's trigger condition for the Range-Around-TWAP evaluator: the
price has left the current position's range, or the computed width
`clamp(k·σ·√(targetHours/yearHours), minWidth, maxWidth)` differs from the
current range's width fraction by more than 0.5% (a missing position counts
as both).  This matches the conditions computed in
`RangeAroundTWAPStrategy.decide`. -/
def rangeTrigger (ctx : StratM.StrategyContext) : Prop :=
  (match ctx.vault.position with
   | none => True
   | some position =>
       ctx.pool.price < position.lower ∨ position.upper < ctx.pool.price) ∨
  (match ctx.vault.position with
   | none => True
   | some position =>
       0.005 < |(position.upper - position.lower) / (2 * ctx.pool.twapLong) -
         clamp (volToBandWidth ctx.pool.vol ctx.params.targetRebalanceHours
             ctx.params.bandWidthK)
           ctx.params.minBandWidth ctx.params.maxBandWidth|)

/-- C7: on CL pools the Range-Around-TWAP evaluator proposes a rebalance iff
the trigger holds and the gas gate passes
(`gain ≥ gas × minGasMultiple`); when the trigger holds but the gas gate
vetoes, the decision is non-actionable but still carries the computed score
`gain − gas`; without a trigger it is the plain no-op. -/
theorem c7_range_twap_trigger (ctx : StratM.StrategyContext)
    (hcl : ctx.pool.type = .cl) :
    ((StratM.rangeAroundTWAPDecide ctx).shouldRebalance = true ↔
      (rangeTrigger ctx ∧
        isWorthRebalance ctx.pool.gasUsd
          (StratM.estimateFeeGain ctx (StratM.totalVaultValue ctx))
          ctx.params.minGasMultiple)) ∧
    (rangeTrigger ctx →
      ¬isWorthRebalance ctx.pool.gasUsd
          (StratM.estimateFeeGain ctx (StratM.totalVaultValue ctx))
          ctx.params.minGasMultiple →
      (StratM.rangeAroundTWAPDecide ctx).shouldRebalance = false ∧
      (StratM.rangeAroundTWAPDecide ctx).score
        = ((StratM.estimateFeeGain ctx (StratM.totalVaultValue ctx)
            - ctx.pool.gasUsd : ℝ) : EReal)) ∧
    (¬rangeTrigger ctx →
      StratM.rangeAroundTWAPDecide ctx
        = noopDecision "Price inside range; width stable") := by
  have hne : ¬(ctx.pool.type ≠ PoolType.cl) := not_not_intro hcl
  by_cases htr : rangeTrigger ctx
  · have hcond : ¬(¬(match ctx.vault.position with
        | none => True
        | some position =>
            ctx.pool.price < position.lower ∨ position.upper < ctx.pool.price) ∧
        ¬(match ctx.vault.position with
        | none => True
        | some position =>
            0.005 < |(position.upper - position.lower) / (2 * ctx.pool.twapLong) -
              clamp (volToBandWidth ctx.pool.vol ctx.params.targetRebalanceHours
                  ctx.params.bandWidthK)
                ctx.params.minBandWidth ctx.params.maxBandWidth|)) := by
      rcases htr with h | h
      · exact fun hc => hc.1 h
      · exact fun hc => hc.2 h
    by_cases hw : isWorthRebalance ctx.pool.gasUsd
        (StratM.estimateFeeGain ctx (StratM.totalVaultValue ctx))
        ctx.params.minGasMultiple
    · have hdec : (StratM.rangeAroundTWAPDecide ctx).shouldRebalance = true := by
        simp only [StratM.rangeAroundTWAPDecide, if_neg hne, if_neg hcond,
          if_neg (not_not_intro hw)]
      refine ⟨iff_of_true hdec ⟨htr, hw⟩, ?_, ?_⟩
      · intro _ hnw
        exact absurd hw hnw
      · intro hnt
        exact absurd htr hnt
    · have hdec : StratM.rangeAroundTWAPDecide ctx
          = { shouldRebalance := false,
              score := ((StratM.estimateFeeGain ctx (StratM.totalVaultValue ctx)
                - ctx.pool.gasUsd : ℝ) : EReal),
              reason := "Fee gain below gas threshold",
              actions := [.noopAction] } := by
        simp only [StratM.rangeAroundTWAPDecide, if_neg hne, if_neg hcond, if_pos hw]
      refine ⟨?_, ?_, ?_⟩
      · rw [hdec]
        exact iff_of_false (by simp) (fun hc => hw hc.2)
      · intro _ _
        rw [hdec]
        exact ⟨rfl, rfl⟩
      · intro hnt
        exact absurd htr hnt
  · have hcond : (¬(match ctx.vault.position with
        | none => True
        | some position =>
            ctx.pool.price < position.lower ∨ position.upper < ctx.pool.price) ∧
        ¬(match ctx.vault.position with
        | none => True
        | some position =>
            0.005 < |(position.upper - position.lower) / (2 * ctx.pool.twapLong) -
              clamp (volToBandWidth ctx.pool.vol ctx.params.targetRebalanceHours
                  ctx.params.bandWidthK)
                ctx.params.minBandWidth ctx.params.maxBandWidth|)) := by
      constructor
      · exact fun h => htr (Or.inl h)
      · exact fun h => htr (Or.inr h)
    have hdec : StratM.rangeAroundTWAPDecide ctx
        = noopDecision "Price inside range; width stable" := by
      simp only [StratM.rangeAroundTWAPDecide, if_neg hne, if_pos hcond]
    refine ⟨?_, ?_, fun _ => hdec⟩
    · rw [hdec]
      exact iff_of_false (by simp [noopDecision]) (fun hc => htr hc.1)
    · intro ht
      exact absurd ht htr

/-- Witness for C7: CL pool, no position (trigger), zero fee/emission APR so
the gas gate vetoes. -/
theorem c7_range_twap_trigger_witness :
    (StratM.rangeAroundTWAPDecide
        ⟨⟨.cl, 1, 1, 1, 0, 0, 0, 1000, 1⟩, ⟨0, 0, none, 0⟩,
         ⟨1.5, 12, 1.2, 0.01, 0.25, 0.03, 0.006, 0.04, 50, none, none, none, none⟩,
         0⟩).shouldRebalance = false := by
  refine ((c7_range_twap_trigger _ rfl).2.1 (Or.inl trivial) ?_).1
  norm_num [isWorthRebalance, StratM.estimateFeeGain]

/-! ## Claim C9: empty input is fatal; one equity point per tick -/

theorem stepTick_equity (config : BacktestConfig) (now : ℝ) (i : ℕ)
    (s : Eng.LoopState) (p : MarketPoint) :
    ∃ val, (Eng.stepTick config now i s p).equity
      = s.equity ++ [⟨p.ts, val, p.price⟩] := ⟨_, rfl⟩

theorem runLoop_equity_ts (config : BacktestConfig) (now : ℝ) :
    ∀ (l : List MarketPoint) (i : ℕ) (s : Eng.LoopState),
      (Eng.runLoop config now i s l).equity.map (·.ts)
        = s.equity.map (·.ts) ++ l.map (·.ts) := by
  intro l
  induction l with
  | nil =>
      intro i s
      simp [Eng.runLoop]
  | cons p rest ih =>
      intro i s
      rw [Eng.runLoop, ih]
      obtain ⟨val, hval⟩ := stepTick_equity config now i s p
      rw [hval]
      simp

theorem chain_ts_of_map_eq {l1 : List Eng.EquityPoint} {l2 : List MarketPoint}
    (h : l1.map (·.ts) = l2.map (·.ts))
    (hs : l2.Chain' (fun a b => a.ts < b.ts)) :
    l1.Chain' (fun a b => a.ts < b.ts) := by
  have h2 : List.Chain' (· < ·) (l2.map fun p => p.ts) :=
    List.chain'_map_of_chain' (fun p : MarketPoint => p.ts) (fun a b hab => hab) hs
  rw [← h] at h2
  exact List.chain'_of_chain'_map (fun p : Eng.EquityPoint => p.ts)
    (fun a b hab => hab) h2

/-- C9: `runBacktest` on an empty series fails with the "no data" error and
produces no result; on a non-empty series it succeeds with an equity curve
carrying exactly one entry per input tick, in input order — hence ordered by
timestamp ascending whenever the input is (the documented input contract). -/
theorem c9_engine_io (now : ℝ) (config : BacktestConfig)
    (series : List MarketPoint) (hne : series ≠ [])
    (hsorted : series.Chain' (fun a b => a.ts < b.ts)) :
    (∀ (cfg : BacktestConfig) (now2 : ℝ),
      Eng.runBacktest now2 cfg [] = .error "No market data points available") ∧
    ∃ r, Eng.runBacktest now config series = .ok r ∧
      r.equityCurve.map (·.ts) = series.map (·.ts) ∧
      r.equityCurve.Chain' (fun a b => a.ts < b.ts) := by
  refine ⟨fun cfg now2 => rfl, ?_⟩
  obtain ⟨first, rest, rfl⟩ := List.exists_cons_of_ne_nil hne
  have hmap := runLoop_equity_ts config now (first :: rest) 0
    ⟨[], [], [], [], ⟨0, 0, 0, 0, 0⟩,
     ⟨config.initialCapitalUsd / 2 / first.price, config.initialCapitalUsd / 2,
      none, 0⟩, first.price⟩
  refine ⟨_, rfl, ?_, ?_⟩
  · simpa using hmap
  · exact chain_ts_of_map_eq (by simpa using hmap) hsorted

/-- Witness for C9 on a two-point series. -/
theorem c9_engine_io_witness :
    let config : BacktestConfig :=
      ⟨.volatile, "X", 60, 1, 1000, 0, 0, 1000000, 1, ⟨1, 1, 4⟩,
       ⟨1.5, 12, 1.2, 0.01, 0.25, 0.03, 0.006, 0.04, 50, none, none, none, none⟩⟩
    let series : List MarketPoint :=
      [⟨0, 2, none, none, none, none⟩, ⟨1, 3, none, none, none, none⟩]
    (∀ (cfg : BacktestConfig) (now2 : ℝ),
      Eng.runBacktest now2 cfg [] = .error "No market data points available") ∧
    ∃ r, Eng.runBacktest 0 config series = .ok r ∧
      r.equityCurve.map (·.ts) = series.map (·.ts) ∧
      r.equityCurve.Chain' (fun a b => a.ts < b.ts) := by
  intro config series
  exact c9_engine_io 0 config series (by simp [series]) (by simp [series])

/-! ## Claim C1: determinism

The only ambient input of `runBacktest` is the `Date.now()` clock, which
lands in `meta.generatedAt` and in the seeded position's `lastRebalanceMs`.
The latter is never read, so the result is a function of (config, series)
except for `generatedAt`.  The simulation below proves this: vault states of
two runs with different clocks agree after erasing `lastRebalanceMs`. -/

/-- Erase the (never read) `lastRebalanceMs` stamp. -/
def erasePosition : Option Eng.Position → Option Eng.Position
  | none => none
  | some pos => some { pos with lastRebalanceMs := 0 }

/-- Erase `lastRebalanceMs` from a vault's position. -/
def eraseVault (v : Eng.VaultState) : Eng.VaultState :=
  { v with position := erasePosition v.position }

theorem relV_cases {v1 v2 : Eng.VaultState} (h : eraseVault v1 = eraseVault v2) :
    (v2 = v1 ∧ v1.position = none ∧ v2.position = none) ∨
    (∃ b q r l u L t1 t2,
      v1 = ⟨b, q, some ⟨l, u, L, t1⟩, r⟩ ∧ v2 = ⟨b, q, some ⟨l, u, L, t2⟩, r⟩) := by
  obtain ⟨b1, q1, o1, r1⟩ := v1
  obtain ⟨b2, q2, o2, r2⟩ := v2
  have hb : b1 = b2 := congrArg Eng.VaultState.baseBalance h
  have hq : q1 = q2 := congrArg Eng.VaultState.quoteBalance h
  have hr : r1 = r2 := congrArg Eng.VaultState.unclaimedRewardsUsd h
  have hp : erasePosition o1 = erasePosition o2 :=
    congrArg Eng.VaultState.position h
  subst hb hq hr
  cases o1 with
  | none =>
      cases o2 with
      | none => exact Or.inl ⟨rfl, rfl, rfl⟩
      | some p2 => exact absurd hp (by simp [erasePosition])
  | some p1 =>
      cases o2 with
      | none => exact absurd hp (by simp [erasePosition])
      | some p2 =>
          obtain ⟨l1, u1, L1, t1⟩ := p1
          obtain ⟨l2, u2, L2, t2⟩ := p2
          simp only [erasePosition, Option.some.injEq, Eng.Position.mk.injEq,
            and_true] at hp
          obtain ⟨hl, hu, hL⟩ := hp
          subst hl hu hL
          exact Or.inr ⟨b1, q1, r1, l1, u1, L1, t1, t2, rfl, rfl⟩

theorem totalVaultValue_congr {v1 v2 : Eng.VaultState}
    (h : eraseVault v1 = eraseVault v2) (price : ℝ) :
    Eng.totalVaultValue v1 price = Eng.totalVaultValue v2 price := by
  rcases relV_cases h with ⟨rfl, -, -⟩ | ⟨b, q, r, l, u, L, t1, t2, rfl, rfl⟩
  · rfl
  · rfl

theorem removeLiquidity_congr {v1 v2 : Eng.VaultState}
    (h : eraseVault v1 = eraseVault v2) (price percent : ℝ) :
    eraseVault (Eng.removeLiquidity v1 price percent)
      = eraseVault (Eng.removeLiquidity v2 price percent) := by
  rcases relV_cases h with ⟨rfl, -, -⟩ | ⟨b, q, r, l, u, L, t1, t2, rfl, rfl⟩
  · rfl
  · simp only [Eng.removeLiquidity]
    split_ifs <;> simp [eraseVault, erasePosition]

theorem addLiquidity_congr {v1 v2 : Eng.VaultState}
    (h : eraseVault v1 = eraseVault v2) (price lower upper amountUsd ts : ℝ) :
    eraseVault (Eng.addLiquidity v1 price lower upper amountUsd ts)
      = eraseVault (Eng.addLiquidity v2 price lower upper amountUsd ts) := by
  rcases relV_cases h with ⟨rfl, -, -⟩ | ⟨b, q, r, l, u, L, t1, t2, rfl, rfl⟩
  · rfl
  · simp only [Eng.addLiquidity]
    split_ifs <;> simp [eraseVault, erasePosition]

theorem swapInventory_congr {v1 v2 : Eng.VaultState}
    (h : eraseVault v1 = eraseVault v2) (price : ℝ) (side : SwapSide)
    (amount poolLiq spreadBps impactBps : ℝ) :
    eraseVault (Eng.swapInventory v1 price side amount poolLiq spreadBps impactBps)
      = eraseVault (Eng.swapInventory v2 price side amount poolLiq spreadBps impactBps) := by
  rcases relV_cases h with ⟨rfl, -, -⟩ | ⟨b, q, r, l, u, L, t1, t2, rfl, rfl⟩
  · rfl
  · simp only [Eng.swapInventory]
    cases side <;> split_ifs <;> simp [eraseVault, erasePosition]

theorem claimRewards_congr {v1 v2 : Eng.VaultState}
    (h : eraseVault v1 = eraseVault v2) :
    eraseVault (Eng.claimRewards v1) = eraseVault (Eng.claimRewards v2) := by
  rcases relV_cases h with ⟨rfl, -, -⟩ | ⟨b, q, r, l, u, L, t1, t2, rfl, rfl⟩
  · rfl
  · simp only [Eng.claimRewards]
    split_ifs <;> simp [eraseVault, erasePosition]

theorem deductGas_congr {v1 v2 : Eng.VaultState}
    (h : eraseVault v1 = eraseVault v2) (gas price : ℝ) :
    eraseVault (Eng.deductGas v1 gas price) = eraseVault (Eng.deductGas v2 gas price) := by
  rcases relV_cases h with ⟨rfl, -, -⟩ | ⟨b, q, r, l, u, L, t1, t2, rfl, rfl⟩
  · rfl
  · simp only [Eng.deductGas]
    split_ifs <;> simp [eraseVault, erasePosition]

theorem seedInitialPosition_clock (v : Eng.VaultState) (pool : PoolSnapshot)
    (config : BacktestConfig) (now1 now2 : ℝ) :
    eraseVault (Eng.seedInitialPosition v pool config now1)
      = eraseVault (Eng.seedInitialPosition v pool config now2) := by
  simp [Eng.seedInitialPosition, eraseVault, erasePosition]

theorem tradeValueUsd_congr {v1 v2 : Eng.VaultState}
    (h : eraseVault v1 = eraseVault v2) (pool : PoolSnapshot) (actions : List Action) :
    Eng.tradeValueUsd v1 pool actions = Eng.tradeValueUsd v2 pool actions := by
  have hstep : Eng.tradeValueStep v1 pool = Eng.tradeValueStep v2 pool := by
    rcases relV_cases h with ⟨rfl, -, -⟩ | ⟨b, q, r, l, u, L, t1, t2, rfl, rfl⟩
    · rfl
    · funext acc a
      cases a <;> rfl
  rw [Eng.tradeValueUsd, Eng.tradeValueUsd, hstep]

theorem pickBest_defaults_congr {v1 v2 : Eng.VaultState}
    (h : eraseVault v1 = eraseVault v2) (pool : PoolSnapshot)
    (params : RebalanceParams) (nowMs : ℝ) :
    pickBest Eng.defaultStrategies ⟨pool, v1, params, nowMs⟩
      = pickBest Eng.defaultStrategies ⟨pool, v2, params, nowMs⟩ := by
  rcases relV_cases h with ⟨rfl, -, -⟩ | ⟨b, q, r, l, u, L, t1, t2, rfl, rfl⟩
  · rfl
  · rfl

theorem applyAction_congr {v1 v2 : Eng.VaultState}
    (h : eraseVault v1 = eraseVault v2) (pool : PoolSnapshot)
    (ts spreadBps impactBps : ℝ) (a : Action) :
    eraseVault (Eng.applyAction pool ts spreadBps impactBps v1 a)
      = eraseVault (Eng.applyAction pool ts spreadBps impactBps v2 a) := by
  cases a with
  | removeLiquidity percent => exact removeLiquidity_congr h pool.price percent
  | addLiquidity lower upper amountUsd =>
      exact addLiquidity_congr h pool.price lower upper amountUsd ts
  | swap side amount =>
      exact swapInventory_congr h pool.price side amount pool.liquidityUsd
        spreadBps impactBps
  | claimRewards minUsd => exact claimRewards_congr h
  | noopAction => exact h

theorem foldl_applyAction_congr (pool : PoolSnapshot) (ts spreadBps impactBps : ℝ) :
    ∀ (actions : List Action) {v1 v2 : Eng.VaultState},
      eraseVault v1 = eraseVault v2 →
      eraseVault (actions.foldl (Eng.applyAction pool ts spreadBps impactBps) v1)
        = eraseVault (actions.foldl (Eng.applyAction pool ts spreadBps impactBps) v2) := by
  intro actions
  induction actions with
  | nil => intro v1 v2 h; exact h
  | cons a rest ih =>
      intro v1 v2 h
      exact ih (applyAction_congr h pool ts spreadBps impactBps a)

theorem applyDecision_congr {v1 v2 : Eng.VaultState}
    (h : eraseVault v1 = eraseVault v2) (pool : PoolSnapshot)
    (decision : StrategyDecision) (stats : Eng.RunningStats)
    (ts spreadBps impactBps mevBps : ℝ) :
    eraseVault (Eng.applyDecision v1 pool decision stats ts spreadBps impactBps mevBps).1
      = eraseVault (Eng.applyDecision v2 pool decision stats ts spreadBps impactBps mevBps).1 ∧
    (Eng.applyDecision v1 pool decision stats ts spreadBps impactBps mevBps).2.1
      = (Eng.applyDecision v2 pool decision stats ts spreadBps impactBps mevBps).2.1 ∧
    (Eng.applyDecision v1 pool decision stats ts spreadBps impactBps mevBps).2.2
      = (Eng.applyDecision v2 pool decision stats ts spreadBps impactBps mevBps).2.2 := by
  have htv := tradeValueUsd_congr h pool decision.actions
  simp only [Eng.applyDecision, htv]
  split_ifs
  all_goals first
    | exact ⟨h, rfl, rfl⟩
    | exact ⟨foldl_applyAction_congr pool ts spreadBps impactBps decision.actions
        (deductGas_congr (deductGas_congr h pool.gasUsd pool.price) _ pool.price),
        rfl, rfl⟩
    | exact ⟨foldl_applyAction_congr pool ts spreadBps impactBps decision.actions
        (deductGas_congr h pool.gasUsd pool.price), rfl, rfl⟩

theorem updateVault_congr {v1 v2 : Eng.VaultState}
    (h : eraseVault v1 = eraseVault v2) (pool : PoolSnapshot)
    (lastPrice price dtDays : ℝ) (stats : Eng.RunningStats) (avgW : ℝ) :
    eraseVault (Eng.updateVault v1 pool lastPrice price dtDays stats avgW).1
      = eraseVault (Eng.updateVault v2 pool lastPrice price dtDays stats avgW).1 ∧
    (Eng.updateVault v1 pool lastPrice price dtDays stats avgW).2
      = (Eng.updateVault v2 pool lastPrice price dtDays stats avgW).2 := by
  rcases relV_cases h with ⟨rfl, -, -⟩ | ⟨b, q, r, l, u, L, t1, t2, rfl, rfl⟩
  · exact ⟨rfl, rfl⟩
  · simp only [Eng.updateVault]
    split_ifs
    all_goals first
      | exact ⟨h, rfl⟩
      | exact ⟨by simp [eraseVault, erasePosition], rfl⟩

theorem seedStep_congr {w1 w2 : Eng.VaultState} (h : eraseVault w1 = eraseVault w2)
    (config : BacktestConfig) (now1 now2 : ℝ) (pool : PoolSnapshot) :
    eraseVault (Eng.seedStep config now1 pool w1)
      = eraseVault (Eng.seedStep config now2 pool w2) := by
  rcases relV_cases h with ⟨rfl, -, -⟩ | ⟨b, q, r, l, u, L, t1, t2, rfl, rfl⟩
  · simp only [Eng.seedStep]
    split_ifs
    · exact seedInitialPosition_clock _ pool config now1 now2
    · rfl
  · simp only [Eng.seedStep]
    rw [if_neg (by simp), if_neg (by simp)]
    exact h

theorem decideStep_congr {m1 m2 : Eng.VaultState}
    (h : eraseVault m1 = eraseVault m2) (config : BacktestConfig) (i : ℕ)
    (pool : PoolSnapshot) (ts : ℝ) (stats : Eng.RunningStats) :
    eraseVault (Eng.decideStep config i pool ts m1 stats).1
      = eraseVault (Eng.decideStep config i pool ts m2 stats).1 ∧
    (Eng.decideStep config i pool ts m1 stats).2.1
      = (Eng.decideStep config i pool ts m2 stats).2.1 ∧
    (Eng.decideStep config i pool ts m1 stats).2.2
      = (Eng.decideStep config i pool ts m2 stats).2.2 := by
  have hd := pickBest_defaults_congr h pool config.rebalanceParams ts
  simp only [Eng.decideStep, hd]
  split_ifs
  all_goals first
    | exact applyDecision_congr h pool _ stats ts _ _ _
    | exact ⟨h, rfl, rfl⟩

theorem tickVault_congr (config : BacktestConfig) (now1 now2 : ℝ) (i : ℕ)
    (pool : PoolSnapshot) (ts lastPrice : ℝ) {v1 v2 : Eng.VaultState}
    (h : eraseVault v1 = eraseVault v2) (stats : Eng.RunningStats) :
    eraseVault (Eng.tickVault config now1 i pool ts lastPrice v1 stats).1
      = eraseVault (Eng.tickVault config now2 i pool ts lastPrice v2 stats).1 ∧
    (Eng.tickVault config now1 i pool ts lastPrice v1 stats).2.1
      = (Eng.tickVault config now2 i pool ts lastPrice v2 stats).2.1 ∧
    (Eng.tickVault config now1 i pool ts lastPrice v1 stats).2.2
      = (Eng.tickVault config now2 i pool ts lastPrice v2 stats).2.2 := by
  obtain ⟨hu1, hu2⟩ := updateVault_congr h pool lastPrice pool.price
    (config.timeStepMinutes / (24 * 60)) stats
    (config.rebalanceParams.avgPoolRangeWidth.getD 0.2)
  simp only [Eng.tickVault]
  rw [hu2]
  exact decideStep_congr (seedStep_congr hu1 config now1 now2 pool) config i pool ts _

/-- Loop states of the two runs agree everywhere except the (erased)
`lastRebalanceMs` stamp inside the vault's position. -/
def relS (s1 s2 : Eng.LoopState) : Prop :=
  s1.returns = s2.returns ∧ s1.prices = s2.prices ∧ s1.equity = s2.equity ∧
  s1.actions = s2.actions ∧ s1.stats = s2.stats ∧
  eraseVault s1.vault = eraseVault s2.vault ∧ s1.lastPrice = s2.lastPrice

theorem stepTick_congr (config : BacktestConfig) (now1 now2 : ℝ) (i : ℕ)
    (p : MarketPoint) (s1 s2 : Eng.LoopState) (h : relS s1 s2) :
    relS (Eng.stepTick config now1 i s1 p) (Eng.stepTick config now2 i s2 p) := by
  obtain ⟨hret, hpr, heq, hact, hstats, hvault, hlast⟩ := h
  unfold relS
  refine ⟨?_, ?_, ?_, ?_, ?_, ?_, ?_⟩
  all_goals simp only [Eng.stepTick]
  · rw [hret, hlast]
  · rw [hpr]
  · rw [hret, hpr, heq, hstats, hlast]
    exact congrArg (fun x => s2.equity ++ [(⟨p.ts, x, p.price⟩ : Eng.EquityPoint)])
      (totalVaultValue_congr
        (tickVault_congr config now1 now2 i _ p.ts s2.lastPrice hvault s2.stats).1
        p.price)
  · rw [hret, hpr, hact, hstats, hlast]
    exact congrArg (fun x => s2.actions ++ Option.toList x)
      (tickVault_congr config now1 now2 i _ p.ts s2.lastPrice hvault s2.stats).2.2
  · rw [hret, hpr, hstats, hlast]
    exact (tickVault_congr config now1 now2 i _ p.ts s2.lastPrice hvault s2.stats).2.1
  · rw [hret, hpr, hstats, hlast]
    exact (tickVault_congr config now1 now2 i _ p.ts s2.lastPrice hvault s2.stats).1

theorem runLoop_congr (config : BacktestConfig) (now1 now2 : ℝ) :
    ∀ (l : List MarketPoint) (i : ℕ) (s1 s2 : Eng.LoopState), relS s1 s2 →
      relS (Eng.runLoop config now1 i s1 l) (Eng.runLoop config now2 i s2 l) := by
  intro l
  induction l with
  | nil =>
      intro i s1 s2 h
      exact h
  | cons p rest ih =>
      intro i s1 s2 h
      exact ih (i + 1) _ _ (stepTick_congr config now1 now2 i p s1 s2 h)

/-- `BacktestResult` with the wall-clock field `meta.generatedAt` erased. -/
def scrubResult (r : Eng.BacktestResult) : Eng.BacktestResult :=
  { r with meta := { r.meta with generatedAt := 0 } }

/-- C1 counterexample: two calls of `runBacktest` with identical config and
identical series but different wall-clock readings produce results that are
not byte-identical — `meta.generatedAt` records `Date.now()`. -/
theorem c1_counterexample :
    Eng.runBacktest 0
        ⟨.volatile, "X", 60, 1, 1000, 0, 0, 1000000, 1, ⟨1, 1, 4⟩,
         ⟨1.5, 12, 1.2, 0.01, 0.25, 0.03, 0.006, 0.04, 50, none, none, none, none⟩⟩
        [⟨0, 2, none, none, none, none⟩]
      ≠ Eng.runBacktest 1
        ⟨.volatile, "X", 60, 1, 1000, 0, 0, 1000000, 1, ⟨1, 1, 4⟩,
         ⟨1.5, 12, 1.2, 0.01, 0.25, 0.03, 0.006, 0.04, 50, none, none, none, none⟩⟩
        [⟨0, 2, none, none, none, none⟩] := by
  intro hcontra
  have hgen := congrArg (fun e => match e with
    | Except.ok r => r.meta.generatedAt
    | Except.error _ => (37 : ℝ)) hcontra
  simp only [Eng.runBacktest] at hgen
  norm_num at hgen

/-- C1 amended: for every config, series and pair of clock readings, the two
results agree in every field except `meta.generatedAt` (which records the
wall clock); in particular the backtest proper — summary, equity curve,
action log and last snapshot — is a pure function of (config, series). -/
theorem c1_determinism_up_to_generatedAt (now1 now2 : ℝ) (config : BacktestConfig)
    (series : List MarketPoint) :
    (Eng.runBacktest now1 config series).map scrubResult
      = (Eng.runBacktest now2 config series).map scrubResult := by
  cases series with
  | nil => rfl
  | cons first rest =>
      obtain ⟨hret, hpr, heq, hact, hstats, hvault, hlast⟩ :=
        runLoop_congr config now1 now2 (first :: rest) 0
          ⟨[], [], [], [], ⟨0, 0, 0, 0, 0⟩,
           ⟨config.initialCapitalUsd / 2 / first.price, config.initialCapitalUsd / 2,
            none, 0⟩, first.price⟩
          ⟨[], [], [], [], ⟨0, 0, 0, 0, 0⟩,
           ⟨config.initialCapitalUsd / 2 / first.price, config.initialCapitalUsd / 2,
            none, 0⟩, first.price⟩
          ⟨rfl, rfl, rfl, rfl, rfl, rfl, rfl⟩
      simp only [Eng.runBacktest, Except.map, scrubResult]
      rw [hret, hpr, heq, hact, hstats]

end V3R
